import Mathlib

/-!
Verification of the mgsearch scrapers (snitch_scraper.py, tasva_scraper.py,
add_image_urls.py) against their specification.

The Python values flowing through the scrapers are decoded JSON documents;
they are modelled by the inductive type `Json` below.  Python dictionaries
are modelled as association lists in insertion order (dict keys are unique,
so `find?`-based lookup matches dict lookup).  Numbers are modelled as
integers: the scrapers only compare and render counts and identifiers.
-/

/-- A decoded JSON document (the type of every payload the scrapers touch). -/
inductive Json where
  | null
  | bool (x : Bool)
  | num (n : Int)
  | str (s : String)
  | arr (xs : List Json)
  | obj (kvs : List (String × Json))

mutual
/-- Boolean equality on JSON values. -/
def Json.beq : Json → Json → Bool
  | .null, .null => true
  | .bool a, .bool b => a == b
  | .num a, .num b => a == b
  | .str a, .str b => a == b
  | .arr a, .arr b => Json.beqList a b
  | .obj a, .obj b => Json.beqFields a b
  | _, _ => false

/-- Boolean equality on JSON arrays. -/
def Json.beqList : List Json → List Json → Bool
  | [], [] => true
  | a :: as, b :: bs => Json.beq a b && Json.beqList as bs
  | _, _ => false

/-- Boolean equality on JSON object entry lists. -/
def Json.beqFields : List (String × Json) → List (String × Json) → Bool
  | [], [] => true
  | (k, v) :: as, (k', v') :: bs => k == k' && Json.beq v v' && Json.beqFields as bs
  | _, _ => false
end

mutual
theorem Json.beq_eq : ∀ a b : Json, Json.beq a b = true → a = b
  | .null, .null, _ => rfl
  | .bool _, .bool _, h => by simpa [Json.beq] using h
  | .num _, .num _, h => by simpa [Json.beq] using h
  | .str _, .str _, h => by simpa [Json.beq] using h
  | .arr a, .arr b, h => by
    rw [Json.beqList_eq a b (by simpa [Json.beq] using h)]
  | .obj a, .obj b, h => by
    rw [Json.beqFields_eq a b (by simpa [Json.beq] using h)]

theorem Json.beqList_eq : ∀ a b : List Json, Json.beqList a b = true → a = b
  | [], [], _ => rfl
  | a :: as, b :: bs, h => by
    simp only [Json.beqList, Bool.and_eq_true] at h
    rw [Json.beq_eq a b h.1, Json.beqList_eq as bs h.2]

theorem Json.beqFields_eq :
    ∀ a b : List (String × Json), Json.beqFields a b = true → a = b
  | [], [], _ => rfl
  | (k, v) :: as, (k', v') :: bs, h => by
    simp only [Json.beqFields, Bool.and_eq_true, beq_iff_eq] at h
    rw [h.1.1, Json.beq_eq v v' h.1.2, Json.beqFields_eq as bs h.2]
end

mutual
theorem Json.beq_refl : ∀ a : Json, Json.beq a a = true
  | .null => rfl
  | .bool a => by simp [Json.beq]
  | .num a => by simp [Json.beq]
  | .str a => by simp [Json.beq]
  | .arr a => by simpa [Json.beq] using Json.beqList_refl a
  | .obj a => by simpa [Json.beq] using Json.beqFields_refl a

theorem Json.beqList_refl : ∀ a : List Json, Json.beqList a a = true
  | [] => rfl
  | a :: as => by
    simp only [Json.beqList, Bool.and_eq_true]
    exact ⟨Json.beq_refl a, Json.beqList_refl as⟩

theorem Json.beqFields_refl :
    ∀ a : List (String × Json), Json.beqFields a a = true
  | [] => rfl
  | (k, v) :: as => by
    simp only [Json.beqFields, Bool.and_eq_true, beq_iff_eq]
    exact ⟨⟨by simp, Json.beq_refl v⟩, Json.beqFields_refl as⟩
end

instance : DecidableEq Json := fun a b =>
  if h : Json.beq a b = true then .isTrue (Json.beq_eq a b h)
  else .isFalse (fun he => h (he ▸ Json.beq_refl a))

/-- One flattened product record: field name to value, in insertion order. -/
abbrev Record := List (String × Json)

/-- Lookup of a key in an association list (Python `d[k]` / `k in d`). -/
def dictFind (kvs : List (String × Json)) (k : String) : Option Json :=
  match kvs.find? (fun kv => kv.1 = k) with
  | some kv => some kv.2
  | none => none

/-- Python `d.get(k)` on a JSON object; `none` when the value is not an object
or the key is absent. -/
def Json.get? (j : Json) (k : String) : Option Json :=
  match j with
  | .obj kvs => dictFind kvs k
  | _ => none

/-- Python `d.get(k, default)` on a JSON object. -/
def Json.getD (j : Json) (k : String) (d : Json) : Json :=
  (j.get? k).getD d

/-- Python `k in d` for an association list. -/
def dictHas (kvs : List (String × Json)) (k : String) : Bool :=
  kvs.any (fun kv => kv.1 = k)

/-- Python `d.get(k, default)` for an association list. -/
def dictGetD (kvs : List (String × Json)) (k : String) (d : Json) : Json :=
  (dictFind kvs k).getD d

/-- Python truthiness of a decoded JSON value. -/
def Json.truthy : Json → Bool
  | .null => false
  | .bool x => x
  | .num n => n ≠ 0
  | .str s => s ≠ ""
  | .arr xs => ¬ xs.isEmpty
  | .obj kvs => ¬ kvs.isEmpty

/-- Python `del`-style removal used by `dict.pop(k, None)` (keys are unique in
a dict, so filtering is the same as removing the one entry). -/
def dictDel (kvs : List (String × Json)) (k : String) : List (String × Json) :=
  kvs.filter (fun kv => kv.1 ≠ k)

/-- Python `d[k] = v`: update in place when the key exists, append otherwise. -/
def dictSet (kvs : List (String × Json)) (k : String) (v : Json) :
    List (String × Json) :=
  match kvs with
  | [] => [(k, v)]
  | (k', v') :: rest =>
    if k' = k then (k', v) :: rest else (k', v') :: dictSet rest k v

/-! ## Decimal rendering (Python `str` on integers, JSON number output) -/

/-- The character for one decimal digit. -/
def digitToChar (d : Nat) : Char := Char.ofNat ('0'.toNat + d)

/-- Little-endian decimal digits by structural recursion on a fuel bound (so
that renderings evaluate inside the kernel); agrees with `Nat.digits`. -/
def natDigitsAux : Nat → Nat → List Nat
  | 0, _ => []
  | fuel + 1, n => if n = 0 then [] else n % 10 :: natDigitsAux fuel (n / 10)

/-- Decimal rendering of a natural number, most significant digit first. -/
def renderNat (n : Nat) : List Char :=
  if n = 0 then ['0'] else ((natDigitsAux n n).reverse).map digitToChar

theorem natDigitsAux_eq (fuel n : Nat) (h : n ≤ fuel) :
    natDigitsAux fuel n = Nat.digits 10 n := by
  induction fuel generalizing n with
  | zero =>
    have : n = 0 := by omega
    subst this
    simp [natDigitsAux]
  | succ fuel ih =>
    by_cases h0 : n = 0
    · subst h0; simp [natDigitsAux]
    · rw [natDigitsAux, if_neg h0]
      rw [ih (n / 10) (by omega)]
      rw [← Nat.digits_def' (by norm_num : 1 < 10) (Nat.pos_of_ne_zero h0)]

theorem renderNat_eq (n : Nat) :
    renderNat n = if n = 0 then ['0'] else ((Nat.digits 10 n).reverse).map digitToChar := by
  unfold renderNat
  rw [natDigitsAux_eq n n le_rfl]

/-- Decimal rendering of an integer (Python `str(int)` and JSON numbers). -/
def renderInt (n : Int) : List Char :=
  if n < 0 then '-' :: renderNat n.natAbs else renderNat n.natAbs

/-- Lowercase hex digit (used by `json.dumps` `\u00xx` escapes). -/
def toHexChar (n : Nat) : Char :=
  if n < 10 then Char.ofNat ('0'.toNat + n) else Char.ofNat ('a'.toNat + (n - 10))

/-! ## `json.dumps` (default separators `", "` / `": "`, `ensure_ascii=False`) -/

/-- Escaping of one character inside a JSON string literal, as `json.dumps`
with `ensure_ascii=False` performs it: quote, backslash and control
characters are escaped, everything else passes through. -/
def escapeChar (c : Char) : List Char :=
  if c = '"' then ['\\', '"']
  else if c = '\\' then ['\\', '\\']
  else if c = '\n' then ['\\', 'n']
  else if c = '\r' then ['\\', 'r']
  else if c = '\t' then ['\\', 't']
  else if c.toNat = 8 then ['\\', 'b']
  else if c.toNat = 12 then ['\\', 'f']
  else if c.toNat < 32 then
    ['\\', 'u', '0', '0', toHexChar (c.toNat / 16), toHexChar (c.toNat % 16)]
  else [c]

/-- Escaping of a whole string body. -/
def escapeStr (cs : List Char) : List Char :=
  (cs.map escapeChar).flatten

/-- The `", "` item separator when more items follow, nothing otherwise. -/
def sepIf : List α → List Char
  | [] => []
  | _ :: _ => [',', ' ']

mutual
/-- Rendering of a JSON value exactly as Python's `json.dumps(v,
ensure_ascii=False)` prints it (default separators `", "` and `": "`). -/
def render : Json → List Char
  | .null => "null".data
  | .bool true => "true".data
  | .bool false => "false".data
  | .num n => renderInt n
  | .str s => '"' :: (escapeStr s.data ++ ['"'])
  | .arr xs => '[' :: (renderItems xs ++ [']'])
  | .obj kvs => '{' :: (renderFields kvs ++ ['}'])

/-- Array items joined by `", "`. -/
def renderItems : List Json → List Char
  | [] => []
  | x :: xs => render x ++ (sepIf xs ++ renderItems xs)

/-- Object entries `"key": value` joined by `", "`. -/
def renderFields : List (String × Json) → List Char
  | [] => []
  | (k, v) :: kvs =>
    '"' :: (escapeStr k.data ++ '"' :: ':' :: ' ' :: render v)
      ++ (sepIf kvs ++ renderFields kvs)
end

/-- Python `json.dumps(v, ensure_ascii=False)` as a string. -/
def json_dumps (v : Json) : String := ⟨render v⟩

/-! ### `ensure_ascii=True` variant (plain `json.dumps(v)` calls) -/

/-- Escaping of one character as `json.dumps` with the default
`ensure_ascii=True` performs it: everything outside printable ASCII is
`\uXXXX`-escaped (astral characters as surrogate pairs). -/
def escapeCharAscii (c : Char) : List Char :=
  if c = '"' then ['\\', '"']
  else if c = '\\' then ['\\', '\\']
  else if c = '\n' then ['\\', 'n']
  else if c = '\r' then ['\\', 'r']
  else if c = '\t' then ['\\', 't']
  else if c.toNat = 8 then ['\\', 'b']
  else if c.toNat = 12 then ['\\', 'f']
  else if c.toNat < 32 ∨ (126 < c.toNat ∧ c.toNat < 65536) then
    ['\\', 'u', toHexChar (c.toNat / 4096 % 16), toHexChar (c.toNat / 256 % 16),
     toHexChar (c.toNat / 16 % 16), toHexChar (c.toNat % 16)]
  else if 126 < c.toNat then
    let v := c.toNat - 65536
    let hi := 55296 + v / 1024
    let lo := 56320 + v % 1024
    ['\\', 'u', toHexChar (hi / 4096 % 16), toHexChar (hi / 256 % 16),
     toHexChar (hi / 16 % 16), toHexChar (hi % 16)]
      ++ ['\\', 'u', toHexChar (lo / 4096 % 16), toHexChar (lo / 256 % 16),
          toHexChar (lo / 16 % 16), toHexChar (lo % 16)]
  else [c]

/-- Escaping of a whole string body, `ensure_ascii=True`. -/
def escapeStrAscii (cs : List Char) : List Char :=
  (cs.map escapeCharAscii).flatten

mutual
/-- Rendering of a JSON value as plain `json.dumps(v)` prints it. -/
def renderAscii : Json → List Char
  | .null => "null".data
  | .bool true => "true".data
  | .bool false => "false".data
  | .num n => renderInt n
  | .str s => '"' :: (escapeStrAscii s.data ++ ['"'])
  | .arr xs => '[' :: (renderItemsAscii xs ++ [']'])
  | .obj kvs => '{' :: (renderFieldsAscii kvs ++ ['}'])

/-- Array items joined by `", "`, `ensure_ascii=True`. -/
def renderItemsAscii : List Json → List Char
  | [] => []
  | x :: xs => renderAscii x ++ (sepIf xs ++ renderItemsAscii xs)

/-- Object entries, `ensure_ascii=True`. -/
def renderFieldsAscii : List (String × Json) → List Char
  | [] => []
  | (k, v) :: kvs =>
    '"' :: (escapeStrAscii k.data ++ '"' :: ':' :: ' ' :: renderAscii v)
      ++ (sepIf kvs ++ renderFieldsAscii kvs)
end

/-- Python `json.dumps(v)` (default `ensure_ascii=True`) as a string. -/
def json_dumps_ascii (v : Json) : String := ⟨renderAscii v⟩

/-- Python `str()` of a decoded JSON value.  Scalars follow Python exactly
(`None`/`True`/`False`, decimal integers, strings unchanged).  Composite
values are modelled by their JSON rendering; Python's `repr` differs in
quoting, but no verified claim depends on that case. -/
def pyStr : Json → String
  | .null => "None"
  | .bool true => "True"
  | .bool false => "False"
  | .num n => ⟨renderInt n⟩
  | .str s => s
  | .arr xs => json_dumps (.arr xs)
  | .obj kvs => json_dumps (.obj kvs)

/-! ## Snitch record flattener (`SnitchScraper._extract_product_info`) -/

namespace Snitch

/-- Python `isinstance(v, (str, int, float, bool)) or v is None`: the guard
deciding that a list holds only primitives. -/
def isScalarOrNone : Json → Bool
  | .null => true
  | .bool _ => true
  | .num _ => true
  | .str _ => true
  | .arr _ => false
  | .obj _ => false

/-- The per-value conversion performed by `_extract_product_info`: scalars
pass through, a nested dict becomes its JSON text, an empty list becomes
`"[]"`, a list of primitives is joined with `", "` (with `None` rendered as
the empty string), any other list becomes its JSON text.  (The Python
`str(value)` fallback is unreachable for decoded JSON input.) -/
def flattenValue : Json → Json
  | .null => .null
  | .bool x => .bool x
  | .num n => .num n
  | .str s => .str s
  | .obj kvs => .str (json_dumps (.obj kvs))
  | .arr xs =>
    if xs = [] then .str "[]"
    else if xs.all isScalarOrNone then
      .str (String.intercalate ", "
        (xs.map (fun v => if v = .null then "" else pyStr v)))
    else .str (json_dumps (.arr xs))

/-- `SnitchScraper._extract_product_info`: every key of the raw item is
assigned a flattened value, in iteration order. -/
def extract_product_info (item : List (String × Json)) : Record :=
  item.map (fun kv => (kv.1, flattenValue kv.2))

end Snitch

theorem dictFind_extract_product_info (item : List (String × Json))
    (k : String) (v : Json) (h : dictFind item k = some v) :
    dictFind (Snitch.extract_product_info item) k = some (Snitch.flattenValue v) := by
  induction item with
  | nil => simp [dictFind, List.find?] at h
  | cons kv rest ih =>
    by_cases hk : kv.1 = k
    · simp only [dictFind, List.find?, hk] at h
      cases h
      simp [dictFind, Snitch.extract_product_info, List.find?, hk]
    · simp only [dictFind, List.find?, hk] at h ⊢
      simpa [Snitch.extract_product_info, dictFind, List.find?, hk] using ih h

/-! ## `json.loads` (model of Python's JSON parser on the grammar the
scrapers serialize: literals, integers, strings with escapes, arrays,
objects, with whitespace skipping) -/

/-- Whitespace accepted between JSON tokens. -/
def isJsonWs (c : Char) : Bool :=
  c = ' ' ∨ c = '\t' ∨ c = '\n' ∨ c = '\r'

/-- Skip leading whitespace. -/
def skipWs : List Char → List Char
  | [] => []
  | c :: rest => if isJsonWs c then skipWs rest else c :: rest

/-- Value of one hex digit. -/
def hexVal (c : Char) : Option Nat :=
  if '0' ≤ c ∧ c ≤ '9' then some (c.toNat - '0'.toNat)
  else if 'a' ≤ c ∧ c ≤ 'f' then some (c.toNat - 'a'.toNat + 10)
  else if 'A' ≤ c ∧ c ≤ 'F' then some (c.toNat - 'A'.toNat + 10)
  else none

/-- The single-character string escapes of JSON. -/
def unescapeShort (c : Char) : Option Char :=
  if c = '"' then some '"'
  else if c = '\\' then some '\\'
  else if c = '/' then some '/'
  else if c = 'n' then some '\n'
  else if c = 'r' then some '\r'
  else if c = 't' then some '\t'
  else if c = 'b' then some (Char.ofNat 8)
  else if c = 'f' then some (Char.ofNat 12)
  else none

/-- Decode the four hex digits of a `\uXXXX` escape (the head of the input). -/
def hexVal4 : List Char → Option Char
  | h1 :: h2 :: h3 :: h4 :: _ =>
    match hexVal h1, hexVal h2, hexVal h3, hexVal h4 with
    | some a, some b, some c, some d =>
      some (Char.ofNat (((a * 16 + b) * 16 + c) * 16 + d))
    | _, _, _, _ => none
  | _ => none

/-- Decode one escape sequence after a backslash, returning the decoded
character and the remaining input. -/
def parseEscape : List Char → Option (Char × List Char)
  | [] => none
  | e :: rest2 =>
    if e = 'u' then
      match hexVal4 rest2 with
      | some c2 => some (c2, rest2.drop 4)
      | none => none
    else
      match unescapeShort e with
      | some c2 => some (c2, rest2)
      | none => none

theorem hexVal4_some_length {s : List Char} {c : Char} (h : hexVal4 s = some c) :
    4 ≤ s.length := by
  match s with
  | [] => simp [hexVal4] at h
  | [_] => simp [hexVal4] at h
  | [_, _] => simp [hexVal4] at h
  | [_, _, _] => simp [hexVal4] at h
  | _ :: _ :: _ :: _ :: _ => simp

theorem parseEscape_length {s : List Char} {c : Char} {r : List Char}
    (h : parseEscape s = some (c, r)) : r.length < s.length := by
  match s with
  | [] => simp [parseEscape] at h
  | e :: rest2 =>
    simp only [parseEscape] at h
    split at h
    · cases hx : hexVal4 rest2 with
      | none => rw [hx] at h; simp at h
      | some c2 =>
        rw [hx] at h
        simp only [Option.some.injEq, Prod.mk.injEq] at h
        have h4 := hexVal4_some_length hx
        simp only [List.length_cons, ← h.2, List.length_drop]
        omega
    · cases hu : unescapeShort e with
      | none => rw [hu] at h; simp at h
      | some c2 =>
        rw [hu] at h
        simp only [Option.some.injEq, Prod.mk.injEq] at h
        simp [← h.2]

/-- Parse the body of a string literal after the opening quote, returning the
decoded characters and the input after the closing quote. -/
def parseStringBody : List Char → Option (List Char × List Char)
  | [] => none
  | c :: rest =>
    if c = '"' then some ([], rest)
    else if c = '\\' then
      match hpe : parseEscape rest with
      | some (c2, rest2) => (parseStringBody rest2).map (fun p => (c2 :: p.1, p.2))
      | none => none
    else (parseStringBody rest).map (fun p => (c :: p.1, p.2))
termination_by s => s.length
decreasing_by
  · simp only [List.length_cons]
    exact Nat.lt_trans (parseEscape_length hpe) (Nat.lt_succ_self _)
  · simp

/-- Take the maximal run of decimal digits. -/
def takeDigits : List Char → List Char × List Char
  | [] => ([], [])
  | c :: rest =>
    if c.isDigit then
      let p := takeDigits rest
      (c :: p.1, p.2)
    else ([], c :: rest)

/-- Numeric value of a digit run, most significant digit first. -/
def digitsToNat (ds : List Char) : Nat :=
  ds.foldl (fun a c => a * 10 + (c.toNat - '0'.toNat)) 0

mutual
/-- Parse one JSON value (fuel bounds the recursion depth; any fuel at least
the size of the value suffices, see `parseVal_render`). -/
def parseVal : Nat → List Char → Option (Json × List Char)
  | 0, _ => none
  | fuel + 1, s =>
    match skipWs s with
    | [] => none
    | c :: rest =>
      if c = 'n' then
        match rest with
        | 'u' :: 'l' :: 'l' :: r => some (.null, r)
        | _ => none
      else if c = 't' then
        match rest with
        | 'r' :: 'u' :: 'e' :: r => some (.bool true, r)
        | _ => none
      else if c = 'f' then
        match rest with
        | 'a' :: 'l' :: 's' :: 'e' :: r => some (.bool false, r)
        | _ => none
      else if c = '"' then
        (parseStringBody rest).map (fun p => (.str ⟨p.1⟩, p.2))
      else if c = '-' then
        let p := takeDigits rest
        if p.1 = [] then none else some (.num (-(digitsToNat p.1 : Int)), p.2)
      else if c.isDigit then
        let p := takeDigits (c :: rest)
        some (.num ((digitsToNat p.1 : Nat) : Int), p.2)
      else if c = '[' then
        match skipWs rest with
        | [] => none
        | c2 :: r =>
          if c2 = ']' then some (.arr [], r)
          else (parseItems fuel (c2 :: r)).map (fun p => (.arr p.1, p.2))
      else if c = '{' then
        match skipWs rest with
        | [] => none
        | c2 :: r =>
          if c2 = '}' then some (.obj [], r)
          else (parseFields fuel (c2 :: r)).map (fun p => (.obj p.1, p.2))
      else none

/-- Parse the items of a non-empty array after the opening bracket. -/
def parseItems : Nat → List Char → Option (List Json × List Char)
  | 0, _ => none
  | fuel + 1, s =>
    match parseVal fuel s with
    | none => none
    | some (v, r1) =>
      match skipWs r1 with
      | [] => none
      | c2 :: r2 =>
        if c2 = ',' then (parseItems fuel r2).map (fun p => (v :: p.1, p.2))
        else if c2 = ']' then some ([v], r2)
        else none

/-- Parse the entries of a non-empty object after the opening brace. -/
def parseFields : Nat → List Char → Option (List (String × Json) × List Char)
  | 0, _ => none
  | fuel + 1, s =>
    match skipWs s with
    | [] => none
    | c0 :: r0 =>
      if c0 = '"' then
        match parseStringBody r0 with
        | none => none
        | some (kcs, r1) =>
          match skipWs r1 with
          | [] => none
          | c1 :: r2 =>
            if c1 = ':' then
              match parseVal fuel r2 with
              | none => none
              | some (v, r3) =>
                match skipWs r3 with
                | [] => none
                | c3 :: r4 =>
                  if c3 = ',' then
                    (parseFields fuel r4).map (fun p => ((⟨kcs⟩, v) :: p.1, p.2))
                  else if c3 = '}' then some ([(⟨kcs⟩, v)], r4)
                  else none
            else none
      else none
end

/-- Python `json.loads`: parse a whole document, requiring only trailing
whitespace after the value. -/
def json_loads (s : String) : Option Json :=
  match parseVal (s.data.length + 1) s.data with
  | some (v, rest) => if skipWs rest = [] then some v else none
  | none => none

/-! ### Serialize/parse round trip -/

theorem skipWs_cons_not (c : Char) (s : List Char) (h : isJsonWs c = false) :
    skipWs (c :: s) = c :: s := by
  simp [skipWs, h]

theorem skipWs_cons_ws (c : Char) (s : List Char) (h : isJsonWs c = true) :
    skipWs (c :: s) = skipWs s := by
  simp [skipWs, h]

/-- `rest` does not begin with a digit (so a number parse cannot absorb it). -/
def noLeadDigit (s : List Char) : Prop :=
  ∀ c, s.head? = some c → c.isDigit = false

theorem noLeadDigit_nil : noLeadDigit [] := by
  intro c h; simp at h

theorem noLeadDigit_cons {c : Char} (h : c.isDigit = false) (s : List Char) :
    noLeadDigit (c :: s) := by
  intro c' h'; simp at h'; rwa [← h']

theorem hexVal_toHexChar : ∀ d, d < 16 → hexVal (toHexChar d) = some d := by decide

theorem parseStringBody_backslash {rest rest2 cs r : List Char} {c2 : Char}
    (hpe : parseEscape rest = some (c2, rest2))
    (h : parseStringBody rest2 = some (cs, r)) :
    parseStringBody ('\\' :: rest) = some (c2 :: cs, r) := by
  rw [parseStringBody]
  simp only [show ('\\' : Char) = '"' ↔ False from by simp, if_false, if_neg,
    reduceIte]
  split
  · rename_i c2' rest2' heq
    rw [hpe] at heq
    simp only [Option.some.injEq, Prod.mk.injEq] at heq
    rw [← heq.1, ← heq.2, h]
    rfl
  · rename_i heq
    rw [hpe] at heq
    simp at heq

theorem parseStringBody_escapeChar (c : Char) {t cs r : List Char}
    (h : parseStringBody t = some (cs, r)) :
    parseStringBody (escapeChar c ++ t) = some (c :: cs, r) := by
  by_cases h1 : c = '"'
  · subst h1; simp [escapeChar, parseStringBody, parseEscape, unescapeShort, h]
  by_cases h2 : c = '\\'
  · subst h2; simp [escapeChar, parseStringBody, parseEscape, unescapeShort, h]
  by_cases h3 : c = '\n'
  · subst h3; simp [escapeChar, parseStringBody, parseEscape, unescapeShort, h]
  by_cases h4 : c = '\r'
  · subst h4; simp [escapeChar, parseStringBody, parseEscape, unescapeShort, h]
  by_cases h5 : c = '\t'
  · subst h5; simp [escapeChar, parseStringBody, parseEscape, unescapeShort, h]
  by_cases h6 : c.toNat = 8
  · have hc : c = Char.ofNat 8 := by rw [← h6, Char.ofNat_toNat]
    subst hc
    simp [escapeChar, parseStringBody, parseEscape, unescapeShort, h]
  by_cases h7 : c.toNat = 12
  · have hc : c = Char.ofNat 12 := by rw [← h7, Char.ofNat_toNat]
    subst hc
    simp [escapeChar, parseStringBody, parseEscape, unescapeShort, h]
  by_cases h8 : c.toNat < 32
  · have e0 : hexVal '0' = some 0 := by decide
    have e1 : hexVal (toHexChar (c.toNat / 16)) = some (c.toNat / 16) :=
      hexVal_toHexChar _ (by omega)
    have e2 : hexVal (toHexChar (c.toNat % 16)) = some (c.toNat % 16) :=
      hexVal_toHexChar _ (Nat.mod_lt _ (by omega))
    rw [show escapeChar c =
        ['\\', 'u', '0', '0', toHexChar (c.toNat / 16), toHexChar (c.toNat % 16)]
      from by simp [escapeChar, h1, h2, h3, h4, h5, h6, h7, h8]]
    simp only [List.cons_append, List.nil_append]
    refine parseStringBody_backslash ?_ h
    simp only [parseEscape, hexVal4, e0, e1, e2, reduceIte]
    rw [show ((0 * 16 + 0) * 16 + c.toNat / 16) * 16 + c.toNat % 16 = c.toNat
      from by omega, Char.ofNat_toNat]
    simp
  · rw [show escapeChar c = [c] from by simp [escapeChar, h1, h2, h3, h4, h5, h6, h7, h8]]
    simp only [List.cons_append, List.nil_append]
    simp [parseStringBody, h1, h2, h]

theorem parseStringBody_escapeStr (cs : List Char) : ∀ rest : List Char,
    parseStringBody (escapeStr cs ++ '"' :: rest) = some (cs, rest) := by
  induction cs with
  | nil => intro rest; simp [escapeStr, parseStringBody]
  | cons c cs ih =>
    intro rest
    have he : escapeStr (c :: cs) = escapeChar c ++ escapeStr cs := by
      simp [escapeStr]
    rw [he, List.append_assoc]
    exact parseStringBody_escapeChar c (ih rest)

theorem digitToChar_facts : ∀ d, d < 10 → (digitToChar d).isDigit = true ∧
    isJsonWs (digitToChar d) = false ∧ digitToChar d ≠ 'n' ∧ digitToChar d ≠ 't' ∧
    digitToChar d ≠ 'f' ∧ digitToChar d ≠ '"' ∧ digitToChar d ≠ '-' ∧
    digitToChar d ≠ ']' ∧ digitToChar d ≠ '}' ∧
    (digitToChar d).toNat - '0'.toNat = d := by decide

theorem renderNat_facts (n : Nat) : ∀ c ∈ renderNat n, c.isDigit = true ∧
    isJsonWs c = false ∧ c ≠ 'n' ∧ c ≠ 't' ∧ c ≠ 'f' ∧ c ≠ '"' ∧ c ≠ '-' ∧
    c ≠ ']' ∧ c ≠ '}' ∧ c.toNat - '0'.toNat ≤ 9 := by
  intro c hc
  rw [renderNat_eq] at hc
  split at hc
  · simp only [List.mem_singleton] at hc
    subst hc; decide
  · simp only [List.mem_map, List.mem_reverse] at hc
    obtain ⟨d, hd, rfl⟩ := hc
    have hd10 : d < 10 := Nat.digits_lt_base (by norm_num) hd
    have := digitToChar_facts d hd10
    exact ⟨this.1, this.2.1, this.2.2.1, this.2.2.2.1, this.2.2.2.2.1,
      this.2.2.2.2.2.1, this.2.2.2.2.2.2.1, this.2.2.2.2.2.2.2.1,
      this.2.2.2.2.2.2.2.2.1, by omega⟩

theorem renderNat_ne_nil (n : Nat) : renderNat n ≠ [] := by
  rw [renderNat_eq]
  split
  · simp
  · simp only [ne_eq, List.map_eq_nil_iff, List.reverse_eq_nil_iff]
    exact Nat.digits_ne_nil_iff_ne_zero.mpr (by assumption)

theorem takeDigits_spec (ds : List Char) (hd : ∀ c ∈ ds, c.isDigit = true) :
    ∀ rest, noLeadDigit rest → takeDigits (ds ++ rest) = (ds, rest) := by
  induction ds with
  | nil =>
    intro rest hr
    cases rest with
    | nil => rfl
    | cons c r =>
      have := hr c (by simp)
      simp [takeDigits, this]
  | cons c ds ih =>
    intro rest hr
    have hc := hd c (by simp)
    simp only [List.cons_append, takeDigits, hc, if_true, List.append_eq]
    rw [ih (fun c' hc' => hd c' (by simp [hc'])) rest hr]

theorem digitsToNat_aux (l : List Nat) (hl : ∀ d ∈ l, d < 10) (a : Nat) :
    ((l.reverse.map digitToChar).foldl (fun a c => a * 10 + (c.toNat - '0'.toNat)) a)
      = a * 10 ^ l.length + Nat.ofDigits 10 l := by
  induction l generalizing a with
  | nil => simp
  | cons d ds ih =>
    have hd10 : d < 10 := hl d (by simp)
    simp only [List.reverse_cons, List.map_append, List.foldl_append, List.map_cons,
      List.map_nil, List.foldl_cons, List.foldl_nil]
    rw [ih (fun d' hd' => hl d' (by simp [hd']))]
    rw [(digitToChar_facts d hd10).2.2.2.2.2.2.2.2.2]
    rw [Nat.ofDigits_cons]
    simp only [List.length_cons, pow_succ]
    ring

theorem digitsToNat_renderNat (n : Nat) : digitsToNat (renderNat n) = n := by
  by_cases h : n = 0
  · subst h; decide
  · rw [renderNat_eq]
    unfold digitsToNat
    rw [if_neg h]
    rw [digitsToNat_aux (Nat.digits 10 n)
      (fun d hd => Nat.digits_lt_base (by norm_num) hd) 0]
    simp [Nat.ofDigits_digits]

theorem parseVal_renderNat (m fuel : Nat) (rest : List Char)
    (hrest : noLeadDigit rest) :
    parseVal (fuel + 1) (renderNat m ++ rest) = some (.num (m : Int), rest) := by
  obtain ⟨c, t, hct⟩ := List.exists_cons_of_ne_nil (renderNat_ne_nil m)
  have hf := renderNat_facts m c (by rw [hct]; exact List.mem_cons_self c t)
  obtain ⟨hdig, hws, hn, ht, hfc, hq, hm, -, -, -⟩ := hf
  rw [hct, List.cons_append, parseVal, skipWs_cons_not _ _ hws]
  simp only [hn, ht, hfc, hq, hm, hdig, if_false, ite_false, ite_true, reduceIte]
  rw [← List.cons_append, ← hct,
    takeDigits_spec _ (fun c' hc' => (renderNat_facts m c' hc').1) rest hrest]
  simp [digitsToNat_renderNat]

theorem parseVal_renderInt (n : Int) (fuel : Nat) (rest : List Char)
    (hrest : noLeadDigit rest) :
    parseVal (fuel + 1) (renderInt n ++ rest) = some (.num n, rest) := by
  unfold renderInt
  split
  · rename_i hneg
    rw [List.cons_append, parseVal,
      skipWs_cons_not _ _ (by decide)]
    simp only [reduceIte]
    rw [takeDigits_spec _ (fun c' hc' => (renderNat_facts n.natAbs c' hc').1) rest hrest]
    simp only [renderNat_ne_nil n.natAbs, ite_false, reduceIte]
    rw [digitsToNat_renderNat]
    have : -((n.natAbs : Nat) : Int) = n := by omega
    rw [this]
    simp
  · rename_i hpos
    rw [parseVal_renderNat n.natAbs fuel rest hrest]
    have : ((n.natAbs : Nat) : Int) = n := by omega
    rw [this]

mutual
/-- Fuel sufficient to parse the rendering of a value. -/
def fuelOf : Json → Nat
  | .null => 1
  | .bool _ => 1
  | .num _ => 1
  | .str _ => 1
  | .arr xs => 1 + fuelItems xs
  | .obj kvs => 1 + fuelFields kvs

/-- Fuel sufficient to parse the rendered items of an array. -/
def fuelItems : List Json → Nat
  | [] => 0
  | x :: xs => 1 + fuelOf x + fuelItems xs

/-- Fuel sufficient to parse the rendered entries of an object. -/
def fuelFields : List (String × Json) → Nat
  | [] => 0
  | (_, v) :: kvs => 1 + fuelOf v + fuelFields kvs
end

theorem fuelOf_pos (v : Json) : 1 ≤ fuelOf v := by
  cases v <;> simp [fuelOf] <;> omega

theorem render_head (v : Json) : ∃ c t, render v = c :: t ∧ isJsonWs c = false ∧
    c ≠ ']' ∧ c ≠ '}' := by
  cases v with
  | null => exact ⟨'n', _, rfl, by decide, by decide, by decide⟩
  | bool x =>
    cases x with
    | false => exact ⟨'f', _, rfl, by decide, by decide, by decide⟩
    | true => exact ⟨'t', _, rfl, by decide, by decide, by decide⟩
  | num n =>
    show ∃ c t, renderInt n = c :: t ∧ _
    unfold renderInt
    split
    · exact ⟨'-', _, rfl, by decide, by decide, by decide⟩
    · obtain ⟨c, t, hct⟩ := List.exists_cons_of_ne_nil (renderNat_ne_nil n.natAbs)
      have hf := renderNat_facts n.natAbs c (by rw [hct]; exact List.mem_cons_self c t)
      exact ⟨c, t, hct, hf.2.1, hf.2.2.2.2.2.2.2.1, hf.2.2.2.2.2.2.2.2.1⟩
  | str s => exact ⟨'"', _, rfl, by decide, by decide, by decide⟩
  | arr xs => exact ⟨'[', _, rfl, by decide, by decide, by decide⟩
  | obj kvs => exact ⟨'{', _, rfl, by decide, by decide, by decide⟩

theorem parseVal_ws : ∀ (fuel : Nat) (s : List Char),
    parseVal fuel (' ' :: s) = parseVal fuel s
  | 0, _ => rfl
  | fuel + 1, s => by
    rw [parseVal, parseVal, skipWs_cons_ws _ _ (by decide)]

theorem parseItems_ws : ∀ (fuel : Nat) (s : List Char),
    parseItems fuel (' ' :: s) = parseItems fuel s
  | 0, _ => rfl
  | fuel + 1, s => by
    rw [parseItems, parseItems, parseVal_ws]

theorem parseFields_ws : ∀ (fuel : Nat) (s : List Char),
    parseFields fuel (' ' :: s) = parseFields fuel s
  | 0, _ => rfl
  | fuel + 1, s => by
    rw [parseFields, parseFields, skipWs_cons_ws _ _ (by decide)]

mutual
theorem parseVal_render (v : Json) : ∀ (fuel : Nat) (rest : List Char),
    fuelOf v ≤ fuel + 1 → noLeadDigit rest →
    parseVal (fuel + 1) (render v ++ rest) = some (v, rest) := by
  intro fuel rest hfuel hrest
  cases v with
  | null =>
    rw [show render Json.null = ['n', 'u', 'l', 'l'] from rfl]
    rw [List.cons_append, parseVal, skipWs_cons_not _ _ (by decide)]
    simp
  | bool x =>
    cases x with
    | true =>
      rw [show render (Json.bool true) = ['t', 'r', 'u', 'e'] from rfl]
      rw [List.cons_append, parseVal, skipWs_cons_not _ _ (by decide)]
      simp
    | false =>
      rw [show render (Json.bool false) = ['f', 'a', 'l', 's', 'e'] from rfl]
      rw [List.cons_append, parseVal, skipWs_cons_not _ _ (by decide)]
      simp
  | num n =>
    rw [show render (Json.num n) = renderInt n from rfl]
    exact parseVal_renderInt n fuel rest hrest
  | str s =>
    rw [show render (Json.str s) = '"' :: (escapeStr s.data ++ ['"']) from rfl]
    rw [List.cons_append, parseVal, skipWs_cons_not _ _ (by decide)]
    simp only [reduceIte]
    rw [List.append_assoc, List.singleton_append,
      parseStringBody_escapeStr s.data rest]
    rfl
  | arr xs =>
    cases xs with
    | nil =>
      rw [show render (Json.arr []) ++ rest = '[' :: ']' :: rest from by
        simp [render, renderItems]]
      rw [parseVal, skipWs_cons_not _ _ (by decide)]
      simp [skipWs_cons_not _ _ (by decide : isJsonWs ']' = false)]
    | cons x xs' =>
      have hsh : render (Json.arr (x :: xs')) ++ rest
          = '[' :: (renderItems (x :: xs') ++ ']' :: rest) := by
        simp [render]
      rw [hsh, parseVal, skipWs_cons_not _ _ (by decide)]
      simp only [reduceIte]
      obtain ⟨c, t, hct, hws, hne1, hne2⟩ := render_head x
      have hshape : renderItems (x :: xs') ++ ']' :: rest
          = c :: (t ++ (sepIf xs' ++ renderItems xs') ++ ']' :: rest) := by
        rw [show renderItems (x :: xs') = render x ++ (sepIf xs' ++ renderItems xs')
          from rfl, hct]
        simp
      rw [hshape, skipWs_cons_not _ _ hws]
      simp only [hne1, reduceIte, if_false, ite_false]
      rw [← hshape]
      have hfit : fuelItems (x :: xs') ≤ fuel := by
        have : fuelOf (Json.arr (x :: xs')) = 1 + fuelItems (x :: xs') := rfl
        omega
      rw [parseItems_render (x :: xs') fuel rest (by simp) hfit]
      rfl
  | obj kvs =>
    cases kvs with
    | nil =>
      rw [show render (Json.obj []) ++ rest = '{' :: '}' :: rest from by
        simp [render, renderFields]]
      rw [parseVal, skipWs_cons_not _ _ (by decide)]
      simp [skipWs_cons_not _ _ (by decide : isJsonWs '}' = false)]
    | cons kv kvs' =>
      obtain ⟨k, v, rfl⟩ : ∃ k v, kv = (k, v) := ⟨kv.1, kv.2, rfl⟩
      have hsh : render (Json.obj ((k, v) :: kvs')) ++ rest
          = '{' :: (renderFields ((k, v) :: kvs') ++ '}' :: rest) := by
        simp [render]
      rw [hsh, parseVal, skipWs_cons_not _ _ (by decide)]
      simp only [reduceIte]
      have hshape : renderFields ((k, v) :: kvs') ++ '}' :: rest
          = '"' :: ((escapeStr k.data ++ '"' :: ':' :: ' ' :: render v)
              ++ (sepIf kvs' ++ renderFields kvs') ++ '}' :: rest) := by
        rw [show renderFields ((k, v) :: kvs')
            = '"' :: (escapeStr k.data ++ '"' :: ':' :: ' ' :: render v)
              ++ (sepIf kvs' ++ renderFields kvs') from rfl]
        simp
      rw [hshape, skipWs_cons_not _ _ (by decide)]
      simp only [reduceIte, if_false, ite_false, show ('"' : Char) ≠ '}' from by decide]
      rw [← hshape]
      have hfit : fuelFields ((k, v) :: kvs') ≤ fuel := by
        have : fuelOf (Json.obj ((k, v) :: kvs')) = 1 + fuelFields ((k, v) :: kvs') := rfl
        omega
      rw [parseFields_render ((k, v) :: kvs') fuel rest (by simp) hfit]
      rfl
termination_by sizeOf v

theorem parseItems_render (xs : List Json) : ∀ (fuel : Nat) (rest : List Char),
    xs ≠ [] → fuelItems xs ≤ fuel →
    parseItems fuel (renderItems xs ++ ']' :: rest) = some (xs, rest) := by
  intro fuel rest hne hfuel
  cases xs with
  | nil => exact absurd rfl hne
  | cons x xs' =>
    have h1 : 1 ≤ fuelOf x := fuelOf_pos x
    have hof : fuelItems (x :: xs') = 1 + fuelOf x + fuelItems xs' := rfl
    obtain ⟨f, rfl⟩ : ∃ f, fuel = f + 1 := ⟨fuel - 1, by omega⟩
    rw [parseItems]
    have hshape : renderItems (x :: xs') ++ ']' :: rest
        = render x ++ ((sepIf xs' ++ renderItems xs') ++ ']' :: rest) := by
      rw [show renderItems (x :: xs') = render x ++ (sepIf xs' ++ renderItems xs')
        from rfl]
      simp
    rw [hshape]
    obtain ⟨f', rfl⟩ : ∃ f', f = f' + 1 := ⟨f - 1, by omega⟩
    rw [parseVal_render x f' ((sepIf xs' ++ renderItems xs') ++ ']' :: rest)
      (by omega)
      (by
        cases xs' with
        | nil => exact noLeadDigit_cons (by decide) _
        | cons y ys => exact noLeadDigit_cons (by decide) _)]
    cases xs' with
    | nil =>
      simp only [sepIf, renderItems, List.nil_append]
      rw [skipWs_cons_not _ _ (by decide)]
      simp
    | cons y ys =>
      simp only [sepIf, List.cons_append, List.nil_append]
      rw [skipWs_cons_not _ _ (by decide)]
      simp only [reduceIte]
      rw [parseItems_ws, parseItems_render (y :: ys) (f' + 1) rest (by simp)
        (by
          have hyy : fuelItems (y :: ys) = 1 + fuelOf y + fuelItems ys := rfl
          omega)]
      rfl
termination_by sizeOf xs

theorem parseFields_render (kvs : List (String × Json)) :
    ∀ (fuel : Nat) (rest : List Char),
    kvs ≠ [] → fuelFields kvs ≤ fuel →
    parseFields fuel (renderFields kvs ++ '}' :: rest) = some (kvs, rest) := by
  intro fuel rest hne hfuel
  cases kvs with
  | nil => exact absurd rfl hne
  | cons kv kvs' =>
    obtain ⟨k, v, rfl⟩ : ∃ k v, kv = (k, v) := ⟨kv.1, kv.2, rfl⟩
    have h1 : 1 ≤ fuelOf v := fuelOf_pos v
    have hof : fuelFields ((k, v) :: kvs') = 1 + fuelOf v + fuelFields kvs' := rfl
    obtain ⟨f, rfl⟩ : ∃ f, fuel = f + 1 := ⟨fuel - 1, by omega⟩
    rw [parseFields]
    have hshape : renderFields ((k, v) :: kvs') ++ '}' :: rest
        = '"' :: (escapeStr k.data
            ++ '"' :: (':' :: ' ' :: (render v
              ++ ((sepIf kvs' ++ renderFields kvs') ++ '}' :: rest)))) := by
      rw [show renderFields ((k, v) :: kvs')
          = '"' :: (escapeStr k.data ++ '"' :: ':' :: ' ' :: render v)
            ++ (sepIf kvs' ++ renderFields kvs') from rfl]
      simp
    rw [hshape, skipWs_cons_not _ _ (by decide)]
    simp only [reduceIte]
    rw [parseStringBody_escapeStr k.data]
    dsimp only
    rw [skipWs_cons_not _ _ (by decide)]
    simp only [reduceIte]
    obtain ⟨f', rfl⟩ : ∃ f', f = f' + 1 := ⟨f - 1, by omega⟩
    rw [parseVal_ws, parseVal_render v f'
      ((sepIf kvs' ++ renderFields kvs') ++ '}' :: rest)
      (by omega)
      (by
        cases kvs' with
        | nil => exact noLeadDigit_cons (by decide) _
        | cons y ys => exact noLeadDigit_cons (by decide) _)]
    cases kvs' with
    | nil =>
      simp only [sepIf, renderFields, List.nil_append]
      rw [skipWs_cons_not _ _ (by decide)]
      simp
    | cons y ys =>
      simp only [sepIf, List.cons_append, List.nil_append]
      rw [skipWs_cons_not _ _ (by decide)]
      simp only [reduceIte]
      rw [parseFields_ws, parseFields_render (y :: ys) (f' + 1) rest (by simp)
        (by
          have hyy : fuelFields (y :: ys) = 1 + (fuelOf y.2) + fuelFields ys := rfl
          omega)]
      rfl
termination_by sizeOf kvs
end

mutual
theorem fuelOf_le_render (v : Json) : fuelOf v ≤ (render v).length := by
  cases v with
  | null => simp [fuelOf, render]
  | bool x => cases x <;> simp [fuelOf, render]
  | num n =>
    have h := renderNat_ne_nil n.natAbs
    show fuelOf (Json.num n) ≤ (renderInt n).length
    unfold renderInt
    split
    · simp [fuelOf]
    · cases hr : renderNat n.natAbs with
      | nil => exact absurd hr h
      | cons c t => simp [fuelOf]
  | str s => simp [fuelOf, render]
  | arr xs =>
    have h := fuelItems_le_render xs
    show fuelOf (Json.arr xs) ≤ ('[' :: (renderItems xs ++ [']'])).length
    have : fuelOf (Json.arr xs) = 1 + fuelItems xs := rfl
    simp only [this, List.length_cons, List.length_append, List.length_singleton]
    omega
  | obj kvs =>
    have h := fuelFields_le_render kvs
    show fuelOf (Json.obj kvs) ≤ ('{' :: (renderFields kvs ++ ['}'])).length
    have : fuelOf (Json.obj kvs) = 1 + fuelFields kvs := rfl
    simp only [this, List.length_cons, List.length_append, List.length_singleton]
    omega
termination_by sizeOf v

theorem fuelItems_le_render (xs : List Json) :
    fuelItems xs ≤ (renderItems xs).length + 1 := by
  cases xs with
  | nil => simp [fuelItems, renderItems]
  | cons x xs' =>
    have h1 := fuelOf_le_render x
    have h2 := fuelItems_le_render xs'
    have he : fuelItems (x :: xs') = 1 + fuelOf x + fuelItems xs' := rfl
    have hr : renderItems (x :: xs') = render x ++ (sepIf xs' ++ renderItems xs') := rfl
    cases xs' with
    | nil =>
      simp only [he, hr, sepIf, renderItems, List.append_nil, List.nil_append]
      have : fuelItems ([] : List Json) = 0 := rfl
      omega
    | cons y ys =>
      simp only [he, hr, sepIf, List.length_append, List.length_cons]
      simp at h2 ⊢
      omega
termination_by sizeOf xs

theorem fuelFields_le_render (kvs : List (String × Json)) :
    fuelFields kvs ≤ (renderFields kvs).length + 1 := by
  cases kvs with
  | nil => simp [fuelFields, renderFields]
  | cons kv kvs' =>
    obtain ⟨k, v, rfl⟩ : ∃ k v, kv = (k, v) := ⟨kv.1, kv.2, rfl⟩
    have h1 := fuelOf_le_render v
    have h2 := fuelFields_le_render kvs'
    have he : fuelFields ((k, v) :: kvs') = 1 + fuelOf v + fuelFields kvs' := rfl
    have hr : renderFields ((k, v) :: kvs')
        = '"' :: (escapeStr k.data ++ '"' :: ':' :: ' ' :: render v)
          ++ (sepIf kvs' ++ renderFields kvs') := rfl
    cases kvs' with
    | nil =>
      simp only [he, hr, sepIf, renderFields, List.append_nil, List.nil_append]
      have : fuelFields ([] : List (String × Json)) = 0 := rfl
      simp only [List.length_cons, List.length_append]
      omega
    | cons y ys =>
      simp only [he, hr, sepIf, List.length_append, List.length_cons]
      simp at h2 ⊢
      omega
termination_by sizeOf kvs
end

/-- Round trip at the top level: parsing the serialized form of any JSON value
gives back exactly that value. -/
theorem json_loads_dumps (v : Json) : json_loads (json_dumps v) = some v := by
  unfold json_loads json_dumps
  have hdata : (⟨render v⟩ : String).data = render v := rfl
  rw [hdata]
  have hfuel : fuelOf v ≤ (render v).length + 1 :=
    Nat.le_succ_of_le (fuelOf_le_render v)
  have := parseVal_render v (render v).length [] hfuel noLeadDigit_nil
  rw [List.append_nil] at this
  rw [this]
  simp [skipWs]

/-! ## Claim theorems for the record flattener -/

/-- C5: Flatten totality.  For every JSON-compatible raw record (modelled as
an association list of decoded JSON values), `_extract_product_info` is a
total function (it returns a `Record`, no error branch exists in the model)
whose output has exactly the input's keys, in order; moreover looking up any
input key in the output yields the flattened form of that key's input value. -/
theorem snitch_flatten_total (item : List (String × Json)) :
    (Snitch.extract_product_info item).map Prod.fst = item.map Prod.fst ∧
    (∀ k v, dictFind item k = some v →
      dictFind (Snitch.extract_product_info item) k
        = some (Snitch.flattenValue v)) := by
  constructor
  · induction item with
    | nil => rfl
    | cons kv rest ih => simp [Snitch.extract_product_info] at ih ⊢
  · exact fun k v h => dictFind_extract_product_info item k v h

theorem snitch_flatten_total_witness :
    dictFind [("a", Json.num 1), ("b", Json.str "x")] "b" = some (Json.str "x") ∧
    dictFind (Snitch.extract_product_info [("a", Json.num 1), ("b", Json.str "x")]) "b"
      = some (Snitch.flattenValue (Json.str "x")) :=
  ⟨by decide, (snitch_flatten_total [("a", Json.num 1), ("b", Json.str "x")]).2 "b"
    (Json.str "x") (by decide)⟩

/-- C6: Serialization round-trip.  The flattener stores, for every nested
mapping value and for every sequence containing a non-scalar element, the
value's JSON serialization, and parsing that stored text back as JSON (the
`json_loads` model) yields the original nested value exactly. -/
theorem snitch_serialize_roundtrip :
    (∀ v : Json, json_loads (json_dumps v) = some v) ∧
    (∀ kvs : List (String × Json),
      Snitch.flattenValue (Json.obj kvs) = Json.str (json_dumps (Json.obj kvs)) ∧
      json_loads (json_dumps (Json.obj kvs)) = some (Json.obj kvs)) ∧
    (∀ (xs : List Json) (x : Json), x ∈ xs → Snitch.isScalarOrNone x = false →
      Snitch.flattenValue (Json.arr xs) = Json.str (json_dumps (Json.arr xs)) ∧
      json_loads (json_dumps (Json.arr xs)) = some (Json.arr xs)) := by
  refine ⟨json_loads_dumps, fun kvs => ⟨rfl, json_loads_dumps _⟩, ?_⟩
  intro xs x hmem hns
  constructor
  · have hne : xs ≠ [] := by
      intro h; subst h; simp at hmem
    have hall : xs.all Snitch.isScalarOrNone = false := by
      rw [List.all_eq_false]
      exact ⟨x, hmem, by simp [hns]⟩
    simp [Snitch.flattenValue, hne, hall]
  · exact json_loads_dumps _

theorem snitch_serialize_roundtrip_witness :
    (Json.obj [("p", Json.num 2)] ∈ [Json.obj [("p", Json.num 2)]] ∧
      Snitch.isScalarOrNone (Json.obj [("p", Json.num 2)]) = false) ∧
    (Snitch.flattenValue (Json.arr [Json.obj [("p", Json.num 2)]])
        = Json.str (json_dumps (Json.arr [Json.obj [("p", Json.num 2)]])) ∧
      json_loads (json_dumps (Json.arr [Json.obj [("p", Json.num 2)]]))
        = some (Json.arr [Json.obj [("p", Json.num 2)]])) :=
  ⟨⟨by decide, by decide⟩,
    snitch_serialize_roundtrip.2.2 [Json.obj [("p", Json.num 2)]]
      (Json.obj [("p", Json.num 2)]) (by decide) (by decide)⟩

/-! ## Snitch response normalizer (`extract_products` and its helpers) -/

namespace Snitch

/-- Field names whose presence marks an object as product-like
(`product_indicators` in `_find_products_recursive`). -/
def product_indicators : List String :=
  ["title", "name", "price", "id", "product_id", "image", "url", "productUrl",
   "selling_price"]

/-- The extra indicators used by `_deep_search_for_products`. -/
def deep_indicators : List String :=
  product_indicators ++ ["product_name", "productName"]

/-- RSC metadata keys skipped by `_find_products_recursive`. -/
def skip_keys : List String :=
  ["children", "className", "routeParams", "__PAGE__", "needHamBurger",
   "needSearchBar", "needDesktopIcons", "displayAppNudge", "key", "value"]

/-- Whether an object carries at least one of the given indicator keys. -/
def hasIndicator (keys : List String) (kvs : List (String × Json)) : Bool :=
  keys.any (fun k => dictHas kvs k)

mutual
/-- `SnitchScraper._find_products_recursive`: returns the first list whose
first element is a product-like object, scanning depth-first with a depth
cap of 10; a top-level list is inspected but its elements are not entered. -/
def find_products_recursive (data : Json) (depth : Nat) : List Json :=
  if depth > 10 then []
  else
    match data with
    | .arr xs =>
      match xs with
      | (.obj sample) :: _ => if hasIndicator product_indicators sample then xs else []
      | _ => []
    | .obj kvs => findInFields kvs depth
    | _ => []

/-- The per-key loop of `_find_products_recursive` over a dict's entries. -/
def findInFields (kvs : List (String × Json)) (depth : Nat) : List Json :=
  match kvs with
  | [] => []
  | (k, v) :: rest =>
    if k ∈ skip_keys then findInFields rest depth
    else
      let direct : List Json :=
        match v with
        | .arr (fst :: tail) =>
          match fst with
          | .obj sample =>
            if hasIndicator product_indicators sample then fst :: tail else []
          | _ => []
        | _ => []
      if direct ≠ [] then direct
      else
        let result := find_products_recursive v (depth + 1)
        if result ≠ [] then result else findInFields rest depth
end

mutual
/-- `SnitchScraper._deep_search_for_products`: collects every dict carrying an
indicator key (unless it looks like RSC metadata), in preorder, skipping the
`children`/`className`/`routeParams` subtrees, with a depth cap of 15. -/
def deep_search (data : Json) (depth : Nat) : List Json :=
  if depth > 15 then []
  else
    match data with
    | .obj kvs =>
      (if hasIndicator deep_indicators kvs then
        if ¬ dictHas kvs "children" ∨ ¬ dictHas kvs "className" then
          [Json.obj kvs]
        else []
      else []) ++ deepFields kvs depth
    | .arr xs => deepItems xs depth
    | _ => []

/-- The dict-entry loop of `_deep_search_for_products`. -/
def deepFields (kvs : List (String × Json)) (depth : Nat) : List Json :=
  match kvs with
  | [] => []
  | (k, v) :: rest =>
    (if k = "children" ∨ k = "className" ∨ k = "routeParams" then []
      else deep_search v (depth + 1)) ++ deepFields rest depth

/-- The list-item loop of `_deep_search_for_products`. -/
def deepItems (xs : List Json) (depth : Nat) : List Json :=
  match xs with
  | [] => []
  | x :: rest => deep_search x (depth + 1) ++ deepItems rest depth
end

/-- `SnitchScraper._looks_like_product`. -/
def looks_like_product (product : Record) : Bool :=
  ¬ product.isEmpty
    ∧ (["title", "name", "id", "product_id", "price", "selling_price"].any
        (fun k => (product.map Prod.fst).contains k))
    ∧ ¬ (product.map Prod.fst).contains "children"
    ∧ ¬ (product.map Prod.fst).contains "className"

/-- The key-path chain of `extract_products` (lines 149-176): try the known
top-level keys in order, then the nested `data.products` / `data.results`
paths, and only then fall back to `_find_products_recursive`.  Returns the
located candidate value and whether the recursive search was used. -/
def locate_products (data : Json) : Json × Bool :=
  match data.get? "data" with
  | some (.arr xs) => (.arr xs, false)
  | other1 =>
    match data.get? "products" with
    | some (.arr xs) => (.arr xs, false)
    | _ =>
      match data.get? "results" with
      | some (.arr xs) => (.arr xs, false)
      | _ =>
        match data.get? "items" with
        | some (.arr xs) => (.arr xs, false)
        | _ =>
          match other1 with
          | some (.obj nested) =>
            match dictFind nested "products" with
            | some v => (v, false)
            | none =>
              match dictFind nested "results" with
              | some v => (v, false)
              | none => (.arr (find_products_recursive (.obj nested) 0), true)
          | _ => (.arr (find_products_recursive data 0), true)

/-- The item loop over a located product list: every item must be a dict
(otherwise Python raises, modelled as `none`); an extracted product is kept
when non-empty (`if product:`). -/
def extractItems : List Json → Option (List Record)
  | [] => some []
  | item :: rest =>
    match item with
    | .obj kvs =>
      (extractItems rest).map (fun ps =>
        let p := extract_product_info kvs
        if p.isEmpty then ps else p :: ps)
    | _ => none

/-- The loop of `extract_products` over a located dict: each value that is a
list has its items extracted. -/
def extractFromDictLists : List (String × Json) → Option (List Record)
  | [] => some []
  | (_, v) :: rest =>
    match v with
    | .arr items =>
      match extractItems items with
      | some ps => (extractFromDictLists rest).map (fun qs => ps ++ qs)
      | none => none
    | _ => extractFromDictLists rest

/-- `SnitchScraper.extract_products`: locate the product list, extract each
item, and when nothing was extracted fall back to the deep search filtered by
`_looks_like_product`.  `none` models a raised exception (a located list item
that is not a dict). -/
def extract_products (data : Json) : Option (List Record) :=
  let step1 : Option (List Record) :=
    match data with
    | .obj _ =>
      match (locate_products data).1 with
      | .arr items => extractItems items
      | .obj kvs => extractFromDictLists kvs
      | _ => some []
    | _ => some []
  match step1 with
  | none => none
  | some products =>
    if products.isEmpty then
      some ((deep_search data 0).filterMap (fun o =>
        match o with
        | .obj kvs =>
          let p := extract_product_info kvs
          if looks_like_product p then some p else none
        | _ => none))
    else some products

end Snitch

/-- Whether an optional JSON value is an array (`isinstance(d[k], list)`). -/
def isArrOpt : Option Json → Bool
  | some (.arr _) => true
  | _ => false

theorem isArrOpt_ne {o : Option Json} (h : isArrOpt o = false) :
    ∀ xs : List Json, o ≠ some (.arr xs) := by
  intro xs he
  subst he
  simp [isArrOpt] at h

/-- C4: Known-path precedence.  When one of the known top-level key-paths
(`data`, `products`, `results`, `items`) holds an array, the locating step of
`extract_products` returns exactly that array — the first such key in the
fixed order — and the recursive heuristic search
(`_find_products_recursive`) is not used (the returned flag is `false`). -/
theorem snitch_known_path_precedence (kvs : List (String × Json)) (xs : List Json) :
    ((Json.obj kvs).get? "data" = some (.arr xs) →
      Snitch.locate_products (.obj kvs) = (.arr xs, false)) ∧
    (isArrOpt ((Json.obj kvs).get? "data") = false →
      (Json.obj kvs).get? "products" = some (.arr xs) →
      Snitch.locate_products (.obj kvs) = (.arr xs, false)) ∧
    (isArrOpt ((Json.obj kvs).get? "data") = false →
      isArrOpt ((Json.obj kvs).get? "products") = false →
      (Json.obj kvs).get? "results" = some (.arr xs) →
      Snitch.locate_products (.obj kvs) = (.arr xs, false)) ∧
    (isArrOpt ((Json.obj kvs).get? "data") = false →
      isArrOpt ((Json.obj kvs).get? "products") = false →
      isArrOpt ((Json.obj kvs).get? "results") = false →
      (Json.obj kvs).get? "items" = some (.arr xs) →
      Snitch.locate_products (.obj kvs) = (.arr xs, false)) := by
  refine ⟨?_, ?_, ?_, ?_⟩
  · intro h
    unfold Snitch.locate_products
    rw [h]
  · intro h0 h
    unfold Snitch.locate_products
    split
    · rename_i heq
      exact absurd heq (isArrOpt_ne h0 _)
    · rw [h]
  · intro h0 h1 h
    unfold Snitch.locate_products
    split
    · rename_i heq
      exact absurd heq (isArrOpt_ne h0 _)
    · split
      · rename_i heq
        exact absurd heq (isArrOpt_ne h1 _)
      · rw [h]
  · intro h0 h1 h2 h
    unfold Snitch.locate_products
    split
    · rename_i heq
      exact absurd heq (isArrOpt_ne h0 _)
    · split
      · rename_i heq
        exact absurd heq (isArrOpt_ne h1 _)
      · split
        · rename_i heq
          exact absurd heq (isArrOpt_ne h2 _)
        · rw [h]

theorem snitch_known_path_precedence_witness :
    isArrOpt ((Json.obj [("data", Json.obj []), ("products", Json.arr [])]).get? "data")
        = false ∧
    (Json.obj [("data", Json.obj []), ("products", Json.arr [])]).get? "products"
        = some (Json.arr []) ∧
    Snitch.locate_products (Json.obj [("data", Json.obj []), ("products", Json.arr [])])
        = (Json.arr [], false) :=
  ⟨by decide, by decide,
    (snitch_known_path_precedence [("data", Json.obj []), ("products", Json.arr [])]
      []).2.1 (by decide) (by decide)⟩

/-! ## Deduplication (`remove_duplicates_by_title`, `remove_duplicates_by_id`) -/

/-- The normalized identity key of `remove_duplicates_by_title`: the `title`
field when truthy, lowercased and stripped, else the empty string. -/
def titleKey (product : Record) : String :=
  let title := dictGetD product "title" (Json.str "")
  if title.truthy then ((pyStr title).toLower).trim else ""

/-- The scan of `SnitchScraper.remove_duplicates_by_title` with its running
`seen_titles` set. -/
def dedupTitleGo (seen : List String) : List Record → List Record
  | [] => []
  | p :: ps =>
    let normalized := titleKey p
    if normalized ≠ "" ∧ normalized ∈ seen then dedupTitleGo seen ps
    else if normalized ≠ "" then p :: dedupTitleGo (normalized :: seen) ps
    else p :: dedupTitleGo seen ps

/-- `SnitchScraper.remove_duplicates_by_title`. -/
def remove_duplicates_by_title (products : List Record) : List Record :=
  dedupTitleGo [] products

/-- The scan of `TasvaScraper.remove_duplicates_by_id` with its running
`seen_ids` set (`product.get('ProductID', '')`, kept when falsy). -/
def dedupIdGo (seen : List Json) : List Record → List Record
  | [] => []
  | p :: ps =>
    let pid := dictGetD p "ProductID" (Json.str "")
    if pid.truthy ∧ pid ∈ seen then dedupIdGo seen ps
    else if pid.truthy then p :: dedupIdGo (pid :: seen) ps
    else p :: dedupIdGo seen ps

/-- `TasvaScraper.remove_duplicates_by_id`. -/
def remove_duplicates_by_id (products : List Record) : List Record :=
  dedupIdGo [] products

/-- The identity key the snitch dedup consults: `none` when empty. -/
def titleKeyOpt (p : Record) : Option String :=
  if titleKey p = "" then none else some (titleKey p)

/-- The identity key the tasva dedup consults: `none` when falsy ("empty"). -/
def idKeyOpt (p : Record) : Option Json :=
  let pid := dictGetD p "ProductID" (Json.str "")
  if pid.truthy then some pid else none

/-- Modelled from the spec's words (the dedup contract of the claim): scan in
original order, keep the first occurrence per identity key and drop every
later record with the same key; records whose key is empty or absent
(`none`) are never treated as duplicates and are all kept. -/
def dedupeSpec {K : Type} [DecidableEq K] (key : Record → Option K) :
    List Record → List Record
  | [] => []
  | p :: ps =>
    match key p with
    | none => p :: dedupeSpec key ps
    | some k => p :: dedupeSpec key (ps.filter (fun q => key q ≠ some k))
termination_by l => l.length
decreasing_by
  · simp
  · have := List.length_filter_le (fun q => decide (key q ≠ some k)) ps
    simp only [List.length_cons]
    omega

theorem dedupTitleGo_spec (ps : List Record) : ∀ seen : List String,
    dedupTitleGo seen ps = dedupeSpec titleKeyOpt (ps.filter (fun q =>
      match titleKeyOpt q with
      | some k => ! seen.contains k
      | none => true)) := by
  induction ps with
  | nil => intro seen; simp [dedupTitleGo, dedupeSpec]
  | cons p ps ih =>
    intro seen
    by_cases hk : titleKey p = ""
    · have hkey : titleKeyOpt p = none := by simp [titleKeyOpt, hk]
      rw [dedupTitleGo]
      simp only [hk, ne_eq, not_true_eq_false, false_and, if_false, ite_false,
        reduceIte]
      rw [List.filter_cons_of_pos (by rw [hkey])]
      rw [dedupeSpec, hkey]
      rw [ih seen]
    · have hkey : titleKeyOpt p = some (titleKey p) := by simp [titleKeyOpt, hk]
      by_cases hseen : titleKey p ∈ seen
      · rw [dedupTitleGo]
        simp only [hk, hseen, ne_eq, not_false_eq_true, and_self, if_true, reduceIte]
        rw [List.filter_cons_of_neg (by
          rw [hkey]
          simpa using hseen)]
        exact ih seen
      · rw [dedupTitleGo]
        simp only [hk, hseen, ne_eq, not_false_eq_true, and_false, if_false,
          and_true, ite_false, if_true, reduceIte, ite_true]
        rw [List.filter_cons_of_pos (by
          rw [hkey]
          simp
          exact hseen)]
        rw [dedupeSpec, hkey]
        dsimp only
        rw [List.filter_filter]
        rw [ih (titleKey p :: seen)]
        refine congrArg (List.cons p) (congrArg (dedupeSpec titleKeyOpt) ?_)
        apply List.filter_congr
        intro q _
        cases hq : titleKeyOpt q with
        | none => simp [hq]
        | some k' =>
          by_cases hkk : k' = titleKey p <;>
            simp [hq, hkk, Bool.and_comm]

theorem dedupIdGo_spec (ps : List Record) : ∀ seen : List Json,
    dedupIdGo seen ps = dedupeSpec idKeyOpt (ps.filter (fun q =>
      match idKeyOpt q with
      | some k => ! seen.contains k
      | none => true)) := by
  induction ps with
  | nil => intro seen; simp [dedupIdGo, dedupeSpec]
  | cons p ps ih =>
    intro seen
    by_cases hk : (dictGetD p "ProductID" (Json.str "")).truthy = true
    · have hkey : idKeyOpt p = some (dictGetD p "ProductID" (Json.str "")) := by
        simp [idKeyOpt, hk]
      by_cases hseen : dictGetD p "ProductID" (Json.str "") ∈ seen
      · rw [dedupIdGo]
        simp only [hk, hseen, and_self, if_true, reduceIte, ite_true]
        rw [List.filter_cons_of_neg (by
          rw [hkey]
          simpa using hseen)]
        exact ih seen
      · rw [dedupIdGo]
        simp only [hk, hseen, and_false, if_false, and_true, ite_false, if_true,
          reduceIte, ite_true]
        rw [List.filter_cons_of_pos (by
          rw [hkey]
          simpa using hseen)]
        rw [dedupeSpec, hkey]
        dsimp only
        rw [List.filter_filter]
        rw [ih (dictGetD p "ProductID" (Json.str "") :: seen)]
        refine congrArg (List.cons p) (congrArg (dedupeSpec idKeyOpt) ?_)
        apply List.filter_congr
        intro q _
        cases hq : idKeyOpt q with
        | none => simp [hq]
        | some k' =>
          by_cases hkk : k' = dictGetD p "ProductID" (Json.str "") <;>
            simp [hq, hkk, Bool.and_comm]
    · have hk' : (dictGetD p "ProductID" (Json.str "")).truthy = false := by
        simpa using hk
      have hkey : idKeyOpt p = none := by simp [idKeyOpt, hk']
      rw [dedupIdGo]
      simp only [hk', false_and, if_false, ite_false, reduceIte, Bool.false_eq_true]
      rw [List.filter_cons_of_pos (by rw [hkey])]
      rw [dedupeSpec, hkey]
      rw [ih seen]

/-- C3: Stable deduplication.  Both dedup routines scan in original order,
keep exactly the first occurrence per identity key and drop every later
record with the same key, and records whose identity key is empty or absent
(falsy title / falsy `ProductID`) are never treated as duplicates of one
another and are all kept — formally, each equals the spec-worded
`dedupeSpec` on its identity key. -/
theorem dedup_stable_first_occurrence (ps : List Record) :
    remove_duplicates_by_title ps = dedupeSpec titleKeyOpt ps ∧
    remove_duplicates_by_id ps = dedupeSpec idKeyOpt ps := by
  constructor
  · rw [remove_duplicates_by_title, dedupTitleGo_spec ps []]
    refine congrArg (dedupeSpec titleKeyOpt) ?_
    apply List.filter_eq_self.mpr
    intro q _
    cases hq : titleKeyOpt q <;> simp [hq]
  · rw [remove_duplicates_by_id, dedupIdGo_spec ps []]
    refine congrArg (dedupeSpec idKeyOpt) ?_
    apply List.filter_eq_self.mpr
    intro q _
    cases hq : idKeyOpt q <;> simp [hq]

/-! ## Tasva record flattener (`TasvaScraper._extract_product_info`) -/

namespace Tasva

/-- The image CDN URL pattern of the tasva scraper. -/
def tasva_image_url (name : String) : String :=
  "https://imagescdn.tasva.com/img/app/product/1/" ++ name
    ++ ".jpg?w=1000&auto=format"

/-- The truthy `Name` values of the dict entries of `Media.Images`
(the `image_names` loop).  Python joins the raw values; `pyStr` agrees with
it on strings, the only case that does not raise. -/
def imageNamesRaw (imgs : List Json) : List Json :=
  imgs.filterMap (fun img =>
    match img with
    | .obj kvs =>
      let nm := dictGetD kvs "Name" (.str "")
      if nm.truthy then some nm else none
    | _ => none)

/-- The truthy `Name` values of the dict entries of `Sizes` (the
`size_names` loop; the `size_info` list the source also builds is never
written to the record). -/
def sizeNamesRaw (ss : List Json) : List Json :=
  ss.filterMap (fun sz =>
    match sz with
    | .obj kvs =>
      let nm := dictGetD kvs "Name" (.str "")
      if nm.truthy then some nm else none
    | _ => none)

/-- `TasvaScraper._extract_product_info`: the full field-by-field flattening
of one `_source` product object, in assignment order. -/
def extract_product_info (item : List (String × Json)) : Record :=
  let g := fun (k : String) (d : Json) => dictGetD item k d
  let base : Record := [
    ("ProductID", g "ProductID" (.str "")),
    ("StyleCode", g "StyleCode" (.str "")),
    ("Name", g "Name" (.str "")),
    ("ShortDescription", g "ShortDescription" (.str "")),
    ("LinkRewrite", g "LinkRewrite" (.str "")),
    ("Price", g "Price" (.str "")),
    ("SellingPrice", g "SellingPrice" (.str "")),
    ("Color", g "Color" (.str "")),
    ("Quantity", g "Quantity" (.num 0)),
    ("Active", g "Active" (.num 0)),
    ("IsReturnable", g "IsReturnable" (.num 0)),
    ("DefaultCategoryID", g "DefaultCategoryID" (.str "")),
    ("DefaultCategoryName", g "DefaultCategoryName" (.str "")),
    ("DefaultCategoryLinkRewrite", g "DefaultCategoryLinkRewrite" (.str "")),
    ("CategoryGroupID", g "CategoryGroupID" (.str "")),
    ("Gender", g "Gender" (.str "")),
    ("GenderLinkRewrite", g "GenderLinkRewrite" (.str "")),
    ("ShopID", g "ShopID" (.str "")),
    ("ShopIDs",
      match dictFind item "ShopIDs" with
      | some (.arr xs) => .str (json_dumps_ascii (.arr xs))
      | some v => v
      | none => .str ""),
    ("PublishedDate", g "PublishedDate" (.str "")),
    ("FirstInStock", g "FirstInStock" (.str ""))]
  let features := g "Features" (.obj [])
  let featuresPart : Record :=
    match features with
    | .obj f => [
        ("Brand", dictGetD f "Brand" (.str "")),
        ("Fabric", dictGetD f "Fabric" (.str "")),
        ("Fit", dictGetD f "Fit" (.str "")),
        ("Color_Feature", dictGetD f "Color" (.str "")),
        ("Craft", dictGetD f "Craft" (.str "")),
        ("Collection", dictGetD f "Collection" (.str "")),
        ("Occasion", dictGetD f "Occasion" (.str "")),
        ("Length", dictGetD f "Length" (.str "")),
        ("Neck", dictGetD f "Neck" (.str "")),
        ("SleeveLength", dictGetD f "SleeveLength" (.str "")),
        ("Type", dictGetD f "Type" (.str "")),
        ("Pockets", dictGetD f "Pockets" (.str "")),
        ("Reversible", dictGetD f "Reversible" (.str "")),
        ("Closure", dictGetD f "Closure" (.str "")),
        ("Subbrand", dictGetD f "Subbrand" (.str "")),
        ("Features_JSON", .str (json_dumps (.obj f)))]
    | _ => [("Features_JSON",
        if features.truthy then .str (json_dumps_ascii features) else .str "")]
  let discount := g "Discount" (.obj [])
  let discountPart : Record :=
    match discount with
    | .obj d => [
        ("Discount_Type", dictGetD d "Type" (.str "")),
        ("Discount_Amount", dictGetD d "Amount" (.str "")),
        ("Discount_StartDate", dictGetD d "StartDate" (.str "")),
        ("Discount_EndDate", dictGetD d "EndDate" (.str "")),
        ("Discount_JSON", .str (json_dumps (.obj d)))]
    | _ => [("Discount_JSON",
        if discount.truthy then .str (json_dumps_ascii discount) else .str "")]
  let media := g "Media" (.obj [])
  let mediaPart : Record :=
    match media with
    | .obj m =>
      let images := dictGetD m "Images" (.arr [])
      let imgPart : Record :=
        match images with
        | .arr imgs =>
          let names := imageNamesRaw imgs
          let urls := names.map (fun n => tasva_image_url (pyStr n))
          [("Images", .str (String.intercalate ", " (names.map pyStr))),
           ("Images_JSON", .str (json_dumps (.arr imgs))),
           ("ImageURLs",
             .str (if urls.isEmpty then "" else String.intercalate ", " urls)),
           ("ImageURLs_JSON",
             if urls.isEmpty then .str "[]"
             else .str (json_dumps (.arr (urls.map Json.str)))),
           ("PrimaryImageURL", .str (urls.headD ""))]
        | _ => [("ImageURLs", .str ""), ("ImageURLs_JSON", .str "[]"),
                ("PrimaryImageURL", .str "")]
      let swatch := dictGetD m "Swatch" (.str "")
      imgPart ++ [
        ("Swatch", swatch),
        ("SwatchExtension", dictGetD m "SwatchExtension" (.str "")),
        ("SwatchImageURL",
          if swatch.truthy then
            .str (tasva_image_url (((pyStr swatch).replace ".jpg" "").replace
              ".jpeg" ""))
          else .str "")]
    | _ => [
        ("Images_JSON",
          if media.truthy then .str (json_dumps_ascii media) else .str ""),
        ("ImageURLs", .str ""), ("ImageURLs_JSON", .str "[]"),
        ("PrimaryImageURL", .str ""), ("SwatchImageURL", .str "")]
  let sizes := g "Sizes" (.arr [])
  let sizesPart : Record :=
    match sizes with
    | .arr ss =>
      let names := sizeNamesRaw ss
      [("Sizes", .str (String.intercalate ", " (names.map pyStr))),
       ("Sizes_JSON", .str (json_dumps (.arr ss)))]
    | _ => [("Sizes_JSON",
        if sizes.truthy then .str (json_dumps_ascii sizes) else .str "")]
  let ca := g "ColorAwayProducts" (.arr [])
  let caPart : Record :=
    match ca with
    | .arr cs => [("ColorAwayProducts_JSON", .str (json_dumps (.arr cs)))]
    | _ => [("ColorAwayProducts_JSON",
        if ca.truthy then .str (json_dumps_ascii ca) else .str "")]
  let lr := g "LinkRewrite" (.str "")
  let pid := g "ProductID" (.str "")
  base ++ featuresPart ++ discountPart ++ mediaPart ++ sizesPart ++ caPart ++ [
    ("SimilarProducts", g "SimilarProducts" (.str "")),
    ("StoreIds", g "StoreIds" (.str "")),
    ("ProductViews", g "ProductViews" (.num 0)),
    ("OrdersCount", g "OrdersCount" (.num 0)),
    ("ProductURL",
      if lr.truthy then
        .str ("https://www.tasva.com/p/" ++ pyStr lr ++ "-" ++ pyStr pid
          ++ ".html")
      else .str "")]

/-- The hit loop of `TasvaScraper.extract_products`: product data is taken
from `_source` when present (a non-dict `_source` raises, modelled `none`),
from the hit itself when the hit is a dict without `_source`; non-dict hits
are skipped; an extracted product is kept when non-empty. -/
def extractHits : List Json → Option (List Record)
  | [] => some []
  | hit :: rest =>
    match hit with
    | .obj hkvs =>
      match dictFind hkvs "_source" with
      | some src =>
        match src with
        | .obj skvs =>
          (extractHits rest).map (fun ps =>
            let p := extract_product_info skvs
            if p.isEmpty then ps else p :: ps)
        | _ => none
      | none =>
        (extractHits rest).map (fun ps =>
          let p := extract_product_info hkvs
          if p.isEmpty then ps else p :: ps)
    | _ => extractHits rest

/-- `TasvaScraper.extract_products`: walk
`{success: ..., results: {products: {hits: [...]}}}`. -/
def extract_products (data : Json) : Option (List Record) :=
  match data with
  | .obj _ =>
    if (data.getD "success" .null).truthy then
      match data.getD "results" (.obj []) with
      | .obj rkvs =>
        match dictGetD rkvs "products" (.obj []) with
        | .obj pkvs =>
          match dictGetD pkvs "hits" (.arr []) with
          | .arr hits => extractHits hits
          | _ => some []
        | _ => some []
      | _ => some []
    else some []
  | _ => some []

end Tasva

theorem dictFind_cons_self (k : String) (v : Json) (rest : Record) :
    dictFind ((k, v) :: rest) k = some v := by
  simp [dictFind, List.find?]

/-- C10: Identity-key presence.  Every record the tasva flattener produces
carries the `ProductID` key as its first field, holding the raw input's
`ProductID` value, defaulted to the empty string when absent — so the
identity key consulted by `remove_duplicates_by_id` exists in every
flattened record. -/
theorem tasva_product_id_present (item : List (String × Json)) :
    dictFind (Tasva.extract_product_info item) "ProductID"
      = some (dictGetD item "ProductID" (Json.str "")) ∧
    (dictFind item "ProductID" = none →
      dictFind (Tasva.extract_product_info item) "ProductID"
        = some (Json.str "")) := by
  have h : Tasva.extract_product_info item
      = ("ProductID", dictGetD item "ProductID" (Json.str ""))
        :: (Tasva.extract_product_info item).tail := rfl
  constructor
  · rw [h]
    exact dictFind_cons_self _ _ _
  · intro h0
    rw [h, dictFind_cons_self]
    rw [dictGetD, h0]
    rfl

theorem tasva_product_id_present_witness :
    dictFind ([] : List (String × Json)) "ProductID" = none ∧
    dictFind (Tasva.extract_product_info []) "ProductID" = some (Json.str "") :=
  ⟨rfl, (tasva_product_id_present []).2 rfl⟩

/-! ## Pagination continuation decisions -/

/-- Python `n < v` for a collected count against a JSON value: defined for
integers and booleans (Python bools are ints), a `TypeError` otherwise. -/
def pyLtNatJson (m : Nat) (v : Json) : Option Bool :=
  match v with
  | .num t => some (decide ((m : Int) < t))
  | .bool b => some (decide ((m : Int) < (if b then 1 else 0)))
  | _ => none

/-- A JSON value as a Python int where Python would accept one. -/
def pyToInt : Json → Option Int
  | .num n => some n
  | .bool b => some (if b then 1 else 0)
  | _ => none

/-- Assignment of a JSON value to a Python variable later tested with
`is not None`: a JSON `null` makes the variable `None` again. -/
def pyAssignOpt (v : Json) : Option Json :=
  if v = .null then none else some v

/-- The continuation decision of `tasva_scraper.scrape_query` (lines
744-767), given the page response, the page's product count, the collected
count, the carried `total_count` and the limit.  Returns the new `has_more`
and the updated `total_count`; `none` models a Python `TypeError`. -/
def tasva_has_more (resp : Json) (products_len all_len : Nat)
    (tc : Option Json) (limit : Nat) : Option (Bool × Option Json) :=
  match resp with
  | .obj _ =>
    if (resp.getD "success" .null).truthy then
      match resp.getD "results" (.obj []) with
      | .obj rkvs =>
        match dictGetD rkvs "products" (.obj []) with
        | .obj pkvs =>
          let tc2 := match dictFind pkvs "total" with
            | some v => pyAssignOpt v
            | none => tc
          match tc2 with
          | some v => (pyLtNatJson all_len v).map (fun b => (b, tc2))
          | none => some (decide (products_len = limit), none)
        | _ => some (false, tc)
      | _ => some (false, tc)
    else some (false, tc)
  | _ => some (false, tc)

/-- The continuation decision of `snitch_scraper.scrape_query` (lines
497-539): the `data`-object block followed by the top-level block.  The
running `has_more` is a raw Python value (the code assigns
`data_obj['hasMore']` unconverted), so it is returned as `Json`; `none`
models a Python `TypeError`. -/
def snitch_has_more (resp : Json) (page products_len all_len : Nat)
    (tc tp : Option Json) (limit : Nat) :
    Option (Json × Option Json × Option Json) :=
  -- Block 1: the `data` object (lines 498-525).
  let step1 : Option (Json × Option Json × Option Json) :=
    match resp.get? "data" with
    | some (.obj dkvs) =>
      let tcStep : Option (Option Json × Option Json) :=
        match dictFind dkvs "total_count" with
        | some v =>
          if v.truthy ∧ limit ≠ 0 then
            match pyToInt v with
            | some t =>
              some (pyAssignOpt v, some (.num ((t + (limit : Int) - 1).fdiv limit)))
            | none => none
          else some (pyAssignOpt v, tp)
        | none => some (tc, tp)
      match tcStep with
      | none => none
      | some (tc2, tp2) =>
        match tc2 with
        | some v =>
          match pyLtNatJson all_len v with
          | some b => some (.bool b, tc2, tp2)
          | none => none
        | none =>
          match dictFind dkvs "hasMore" with
          | some hm => some (hm, tc2, tp2)
          | none =>
            match dictFind dkvs "nextPage" with
            | some np =>
              if np.truthy then some (.bool true, tc2, tp2)
              else if products_len = limit then some (.bool true, tc2, tp2)
              else some (.bool false, tc2, tp2)
            | none =>
              if products_len = limit then some (.bool true, tc2, tp2)
              else some (.bool false, tc2, tp2)
    | _ => some (.bool false, tc, tp)
  -- Block 2: top-level pagination fields (lines 528-539).
  match step1 with
  | none => none
  | some (hm1, tc2, tp2) =>
    if hm1.truthy then some (hm1, tc2, tp2)
    else
      match resp with
      | .obj rkvs =>
        let hasMoreHit := match dictFind rkvs "hasMore" with
          | some v => v.truthy
          | none => false
        if hasMoreHit then some (.bool true, tc2, tp2)
        else
          match dictFind rkvs "totalPages" with
          | some v =>
            match pyLtNatJson page v with
            | some b =>
              some ((if b then .bool true else hm1), tc2, pyAssignOpt v)
            | none => none
          | none =>
            match dictFind rkvs "nextPage" with
            | some v2 =>
              if v2.truthy then some (.bool true, tc2, tp2)
              else if products_len = limit ∧ tc2 = none then
                some (.bool true, tc2, tp2)
              else some (hm1, tc2, tp2)
            | none =>
              if products_len = limit ∧ tc2 = none then
                some (.bool true, tc2, tp2)
              else some (hm1, tc2, tp2)
      | _ => some (hm1, tc2, tp2)

theorem tasva_extract_guards {resp : Json} {ps : List Record}
    (h : Tasva.extract_products resp = some ps) (hne : ps ≠ []) :
    (∃ kvs, resp = Json.obj kvs) ∧ (resp.getD "success" Json.null).truthy = true := by
  cases resp with
  | obj kvs =>
    refine ⟨⟨kvs, rfl⟩, ?_⟩
    by_contra hf
    rw [Tasva.extract_products] at h
    simp only [Bool.not_eq_true] at hf
    rw [hf] at h
    simp at h
    exact hne h
  | null => simp [Tasva.extract_products] at h; exact absurd h hne
  | bool x => simp [Tasva.extract_products] at h; exact absurd h hne
  | num n => simp [Tasva.extract_products] at h; exact absurd h hne
  | str s => simp [Tasva.extract_products] at h; exact absurd h hne
  | arr xs => simp [Tasva.extract_products] at h; exact absurd h hne

/-- C1 counterexample: a snitch response whose `data.total_count` equals the
collected count (so the claim demands STOP) but which carries a top-level
`hasMore: true`; the decision comes out `true` (continue), so the
continue/stop decision is not determined solely by
`records_collected < total_count` and the lower-priority top-level has-more
flag is consulted. -/
theorem snitch_total_override_counterexample :
    snitch_has_more
      (Json.obj [("data", Json.obj [("total_count", Json.num 1),
        ("products", Json.arr [Json.obj [("title", Json.str "x")]])]),
        ("hasMore", Json.bool true)])
      1 1 1 none none 1000
      = some (Json.bool true, some (Json.num 1), some (Json.num 1)) ∧
    ¬ (((1 : Nat) : Int) < (1 : Int)) := by
  constructor
  · decide
  · simp

/-- C1 amended: total-count priority as the code implements it.  For the
Tasva paginator the claim holds as stated: on a page that returned at least
one record, when the response carries a numeric `total` the decision is
exactly `records_collected < total` and no lower-priority signal is
consulted.  For the Snitch paginator the same holds provided the response
has no top-level `hasMore`, `totalPages` or `nextPage` key — when such a
top-level field is present it is consulted even after
`records_collected >= data.total_count` (see the counterexample). -/
theorem pagination_total_count_amended :
    (∀ (resp : Json) (rkvs pkvs : List (String × Json)) (t : Int)
        (ps : List Record) (n m limit : Nat) (tc : Option Json),
      Tasva.extract_products resp = some ps → ps ≠ [] →
      resp.getD "results" (.obj []) = .obj rkvs →
      dictGetD rkvs "products" (.obj []) = .obj pkvs →
      dictFind pkvs "total" = some (.num t) →
      tasva_has_more resp n m tc limit
        = some (decide ((m : Int) < t), some (.num t))) ∧
    (∀ (resp : Json) (dkvs : List (String × Json)) (t : Int)
        (page n m limit : Nat) (tc tp : Option Json),
      resp.get? "data" = some (.obj dkvs) →
      dictFind dkvs "total_count" = some (.num t) →
      resp.get? "hasMore" = none →
      resp.get? "totalPages" = none →
      resp.get? "nextPage" = none →
      ∃ tp2, snitch_has_more resp page n m tc tp limit
        = some (.bool (decide ((m : Int) < t)), some (.num t), tp2)) := by
  constructor
  · intro resp rkvs pkvs t ps n m limit tc hex hne hres hprod htot
    obtain ⟨⟨kvs, rfl⟩, hsucc⟩ := tasva_extract_guards hex hne
    rw [tasva_has_more]
    rw [hsucc, hres]
    dsimp only
    rw [hprod]
    dsimp only
    rw [htot]
    simp [pyAssignOpt, pyLtNatJson]
  · intro resp dkvs t page n m limit tc tp hdata htot hhm htp hnp
    obtain ⟨rkvs, rfl⟩ : ∃ kvs, resp = Json.obj kvs := by
      cases resp <;> simp [Json.get?] at hdata ⊢
    have hhm' : dictFind rkvs "hasMore" = none := hhm
    have htp' : dictFind rkvs "totalPages" = none := htp
    have hnp' : dictFind rkvs "nextPage" = none := hnp
    rw [snitch_has_more]
    rw [hdata]
    dsimp only
    rw [htot]
    dsimp only
    by_cases hg : (Json.num t).truthy = true ∧ limit ≠ 0
    · rw [if_pos hg]
      refine ⟨some (.num ((t + (limit : Int) - 1).fdiv limit)), ?_⟩
      simp only [pyToInt, pyAssignOpt, pyLtNatJson]
      by_cases hmt : (m : Int) < t
      · simp [hmt, Json.truthy]
      · simp [hmt, Json.truthy, hhm', htp', hnp']
    · rw [if_neg hg]
      refine ⟨tp, ?_⟩
      simp only [pyToInt, pyAssignOpt, pyLtNatJson]
      by_cases hmt : (m : Int) < t
      · simp [hmt, Json.truthy]
      · simp [hmt, Json.truthy, hhm', htp', hnp']

theorem pagination_total_count_amended_witness :
    (Tasva.extract_products (Json.obj [("success", Json.bool true),
        ("results", Json.obj [("products", Json.obj [("total", Json.num 5),
          ("hits", Json.arr [Json.obj [("_source", Json.obj [])]])])])])
        = some [Tasva.extract_product_info []] ∧
      tasva_has_more (Json.obj [("success", Json.bool true),
        ("results", Json.obj [("products", Json.obj [("total", Json.num 5),
          ("hits", Json.arr [Json.obj [("_source", Json.obj [])]])])])])
        1 3 none 24 = some (true, some (Json.num 5))) ∧
    ∃ tp2, snitch_has_more
        (Json.obj [("data", Json.obj [("total_count", Json.num 2)])])
        1 1 2 none none 1000
        = some (.bool false, some (Json.num 2), tp2) := by
  refine ⟨⟨rfl, ?_⟩, ?_⟩
  · have := pagination_total_count_amended.1
      (Json.obj [("success", Json.bool true),
        ("results", Json.obj [("products", Json.obj [("total", Json.num 5),
          ("hits", Json.arr [Json.obj [("_source", Json.obj [])]])])])])
      [("products", Json.obj [("total", Json.num 5),
        ("hits", Json.arr [Json.obj [("_source", Json.obj [])]])])]
      [("total", Json.num 5), ("hits", Json.arr [Json.obj [("_source", Json.obj [])]])]
      5 [Tasva.extract_product_info []] 1 3 24 none rfl (by simp) rfl rfl rfl
    simpa using this
  · have := pagination_total_count_amended.2
      (Json.obj [("data", Json.obj [("total_count", Json.num 2)])])
      [("total_count", Json.num 2)] 2 1 1 2 1000 none none rfl rfl rfl rfl rfl
    simpa using this

/-! ## The pagination loops (`scrape_query` of both scrapers) -/

/-- Outcome of one `scrape_query` run.  `exn` models a Python exception
escaping the loop body; `fuelOut` is a model artifact marking that the given
fuel did not cover the loop's iterations (the loop would keep running). -/
inductive ScrapeResult where
  | ok (products : List Record) (fetches : Nat) (safetyHit : Bool)
  | exn
  | fuelOut
deriving DecidableEq

/-- The `while True` loop of `snitch_scraper.scrape_query` (lines 473-552):
fetch, extract, stop on an empty page, extend, decide continuation, advance
the page counter and stop unconditionally once it exceeds 1000. -/
def snitch_scrape_loop (server : Nat → Json) (limit : Nat) :
    Nat → Nat → Option Json → Option Json → List Record → Nat → ScrapeResult
  | 0, _, _, _, _, _ => .fuelOut
  | fuel + 1, page, tc, tp, acc, fetches =>
    match Snitch.extract_products (server page) with
    | none => .exn
    | some products =>
      if products.isEmpty then .ok acc (fetches + 1) false
      else
        let acc2 := acc ++ products
        match snitch_has_more (server page) page products.length acc2.length
            tc tp limit with
        | none => .exn
        | some (hm, tc2, tp2) =>
          if hm.truthy = false then .ok acc2 (fetches + 1) false
          else if page + 1 > 1000 then .ok acc2 (fetches + 1) true
          else snitch_scrape_loop server limit fuel (page + 1) tc2 tp2 acc2
            (fetches + 1)

/-- `snitch_scraper.scrape_query`: the loop from page 1 with fuel covering
the page ceiling (the safety stop at page 1000 bounds the loop by 1000
iterations, see `snitch_scrape_query_total`). -/
def snitch_scrape_query (server : Nat → Json) (limit : Nat) : ScrapeResult :=
  snitch_scrape_loop server limit 1001 1 none none [] 0

/-- The `while True` loop of `tasva_scraper.scrape_query` (lines 724-783):
fetch at the current offset, extract, stop on an empty page, extend, decide
continuation, advance the offset by `limit` and stop unconditionally once it
exceeds 100000. -/
def tasva_scrape_loop (server : Nat → Json) (limit : Nat) :
    Nat → Nat → Option Json → List Record → Nat → ScrapeResult
  | 0, _, _, _, _ => .fuelOut
  | fuel + 1, offset, tc, acc, fetches =>
    match Tasva.extract_products (server offset) with
    | none => .exn
    | some products =>
      if products.isEmpty then .ok acc (fetches + 1) false
      else
        let acc2 := acc ++ products
        match tasva_has_more (server offset) products.length acc2.length
            tc limit with
        | none => .exn
        | some (hm, tc2) =>
          if hm = false then .ok acc2 (fetches + 1) false
          else if offset + limit > 100000 then .ok acc2 (fetches + 1) true
          else tasva_scrape_loop server limit fuel (offset + limit) tc2 acc2
            (fetches + 1)

/-- `tasva_scraper.scrape_query`: the loop from offset 0 with fuel covering
the offset ceiling for any positive limit. -/
def tasva_scrape_query (server : Nat → Json) (limit : Nat) : ScrapeResult :=
  tasva_scrape_loop server limit 100002 0 none [] 0

/-- A simulated Tasva source: a fixed catalogue of `T` distinct records
served in order in pages of size `L`, every response carrying the total
count, in the response shape `scrape_query` consumes. -/
def tasvaServe (T L offset : Nat) : Json :=
  Json.obj [("success", Json.bool true),
    ("results", Json.obj [("products", Json.obj [
      ("total", Json.num (T : Int)),
      ("hits", Json.arr ((List.range' offset (min L (T - offset))).map
        (fun i : Nat => Json.obj [("_source",
          Json.obj [("ProductID", Json.num (i : Int))])])))])])]

theorem tasva_extract_product_info_ne_empty (s : List (String × Json)) :
    (Tasva.extract_product_info s).isEmpty = false := rfl

theorem tasva_extractHits_map (srcs : List (List (String × Json))) :
    Tasva.extractHits (srcs.map (fun s => Json.obj [("_source", Json.obj s)]))
      = some (srcs.map (fun s => Tasva.extract_product_info s)) := by
  induction srcs with
  | nil => rfl
  | cons s rest ih =>
    rw [List.map_cons, Tasva.extractHits]
    dsimp only [dictFind, List.find?]
    simp only [ih, Option.map_some]
    simp [tasva_extract_product_info_ne_empty s]

theorem tasva_extract_serve (T L off : Nat) :
    Tasva.extract_products (tasvaServe T L off)
      = some ((List.range' off (min L (T - off))).map
          (fun i : Nat => Tasva.extract_product_info
            [("ProductID", Json.num (i : Int))])) := by
  have hstep : Tasva.extract_products (tasvaServe T L off)
      = Tasva.extractHits ((List.range' off (min L (T - off))).map
          (fun i : Nat => Json.obj [("_source",
            Json.obj [("ProductID", Json.num (i : Int))])])) := rfl
  have hmap := tasva_extractHits_map ((List.range' off (min L (T - off))).map
      (fun i : Nat => [("ProductID", Json.num (i : Int))]))
  rw [List.map_map, List.map_map] at hmap
  simp only [Function.comp_def] at hmap
  rw [hstep, hmap]

theorem tasva_has_more_serve (T L off n m lim : Nat) (tc : Option Json) :
    tasva_has_more (tasvaServe T L off) n m tc lim
      = some (decide ((m : Int) < (T : Int)), some (Json.num (T : Int))) := by
  rw [tasvaServe, tasva_has_more]
  simp [Json.getD, Json.get?, dictFind, dictGetD, List.find?, Json.truthy,
    pyAssignOpt, pyLtNatJson]

theorem tasva_loop_serve (T L : Nat) (hL : 0 < L) (hT : T ≤ 100000) :
    ∀ (fuel off : Nat) (acc : List Record) (fetches : Nat) (tc : Option Json),
    off < T → acc.length = off → (T - off + L - 1) / L ≤ fuel →
    ∃ ps : List Record,
      tasva_scrape_loop (tasvaServe T L) L fuel off tc acc fetches
        = .ok ps (fetches + (T - off + L - 1) / L) false ∧ ps.length = T := by
  intro fuel
  induction fuel with
  | zero =>
    intro off acc fetches tc hoff hacc hfuel
    exfalso
    have h1 : 1 ≤ (T - off + L - 1) / L := (Nat.one_le_div_iff hL).mpr (by omega)
    omega
  | succ fuel ih =>
    intro off acc fetches tc hoff hacc hfuel
    rw [tasva_scrape_loop, tasva_extract_serve]
    have hmin : 1 ≤ min L (T - off) := by omega
    have hlen : ((List.range' off (min L (T - off))).map
        (fun i : Nat => Tasva.extract_product_info
          [("ProductID", Json.num (i : Int))])).length = min L (T - off) := by
      rw [List.length_map, List.length_range']
    have hnil : ((List.range' off (min L (T - off))).map
        (fun i : Nat => Tasva.extract_product_info
          [("ProductID", Json.num (i : Int))])) ≠ [] := by
      intro h
      rw [h] at hlen
      simp at hlen
      omega
    have hne : ((List.range' off (min L (T - off))).map
        (fun i : Nat => Tasva.extract_product_info
          [("ProductID", Json.num (i : Int))])).isEmpty = false := by
      simpa [List.isEmpty_iff] using hnil
    dsimp only
    rw [hne]
    simp only [Bool.false_eq_true, if_false, ite_false, reduceIte]
    rw [tasva_has_more_serve]
    dsimp only
    have hm : (acc ++ (List.range' off (min L (T - off))).map
        (fun i : Nat => Tasva.extract_product_info
          [("ProductID", Json.num (i : Int))])).length = min (off + L) T := by
      rw [List.length_append, hacc, hlen]
      omega
    by_cases hcase : off + L < T
    · have hlt : ((acc ++ (List.range' off (min L (T - off))).map
          (fun i : Nat => Tasva.extract_product_info
            [("ProductID", Json.num (i : Int))])).length : Int) < (T : Int) := by
        rw [hm]
        push_cast
        omega
      rw [decide_eq_true hlt]
      simp only [Bool.true_eq_false, if_false, ite_false, reduceIte]
      rw [if_neg (by omega : ¬ off + L > 100000)]
      have harith : (T - off + L - 1) / L = (T - (off + L) + L - 1) / L + 1 := by
        rw [← Nat.add_div_right _ hL]
        congr 1
        omega
      obtain ⟨ps, hps, hlenps⟩ := ih (off + L)
        (acc ++ (List.range' off (min L (T - off))).map
          (fun i : Nat => Tasva.extract_product_info [("ProductID", Json.num (i : Int))]))
        (fetches + 1) (some (Json.num (T : Int)))
        hcase (by rw [hm]; omega) (by omega)
      refine ⟨ps, ?_, hlenps⟩
      rw [hps]
      congr 1
      omega
    · have hnlt : ¬ ((acc ++ (List.range' off (min L (T - off))).map
          (fun i : Nat => Tasva.extract_product_info
            [("ProductID", Json.num (i : Int))])).length : Int) < (T : Int) := by
        rw [hm]
        push_cast
        omega
      rw [decide_eq_false hnlt]
      simp only [if_true, reduceIte, ite_true]
      refine ⟨acc ++ (List.range' off (min L (T - off))).map
          (fun i : Nat => Tasva.extract_product_info
            [("ProductID", Json.num (i : Int))]), ?_, ?_⟩
      · congr 1
        have : (T - off + L - 1) / L = 1 :=
          Nat.div_eq_of_lt_le (by omega) (by omega)
        omega
      · rw [hm]
        omega

/-- A simulated Snitch source: a fixed catalogue of `T` distinct records
served in order in pages of size `L` (pages are 1-based), every response
carrying `data.total_count`, in the response shape the snitch
`scrape_query` consumes. -/
def snitchServe (T L page : Nat) : Json :=
  Json.obj [("data", Json.obj [
    ("products", Json.arr
      ((List.range' ((page - 1) * L) (min L (T - (page - 1) * L))).map
        (fun i : Nat => Json.obj [("id", Json.num (i : Int))]))),
    ("total_count", Json.num (T : Int))])]

theorem snitch_extractItems_range (l : List Nat) :
    Snitch.extractItems (l.map (fun i : Nat => Json.obj [("id", Json.num (i : Int))]))
      = some (l.map (fun i : Nat =>
          Snitch.extract_product_info [("id", Json.num (i : Int))])) := by
  induction l with
  | nil => rfl
  | cons a rest ih =>
    rw [List.map_cons, List.map_cons, Snitch.extractItems]
    dsimp only
    rw [ih]
    simp [Snitch.extract_product_info]

theorem snitch_extract_serve (T L p : Nat) (h : min L (T - (p - 1) * L) ≠ 0) :
    Snitch.extract_products (snitchServe T L p)
      = some ((List.range' ((p - 1) * L) (min L (T - (p - 1) * L))).map
          (fun i : Nat =>
            Snitch.extract_product_info [("id", Json.num (i : Int))])) := by
  have hstep : Snitch.extract_products (snitchServe T L p)
      = (match Snitch.extractItems
            ((List.range' ((p - 1) * L) (min L (T - (p - 1) * L))).map
              (fun i : Nat => Json.obj [("id", Json.num (i : Int))])) with
         | none => none
         | some products =>
           if products.isEmpty then
             some ((Snitch.deep_search (snitchServe T L p) 0).filterMap (fun o =>
               match o with
               | .obj kvs =>
                 let q := Snitch.extract_product_info kvs
                 if Snitch.looks_like_product q then some q else none
               | _ => none))
           else some products) := rfl
  rw [snitch_extractItems_range] at hstep
  have hnnil : (List.range' ((p - 1) * L) (min L (T - (p - 1) * L))) ≠ [] := by
    intro hcon
    have := congrArg List.length hcon
    rw [List.length_range'] at this
    simp at this
    exact h (by omega)
  have hne : ((List.range' ((p - 1) * L) (min L (T - (p - 1) * L))).map
      (fun i : Nat =>
        Snitch.extract_product_info [("id", Json.num (i : Int))])).isEmpty = false := by
    simp [List.isEmpty_iff, hnnil]
  rw [hstep]
  dsimp only
  rw [hne]
  simp

theorem snitch_has_more_serve (T L p n m : Nat) (tc tp : Option Json)
    (hT : 1 ≤ T) (hL : 0 < L) :
    snitch_has_more (snitchServe T L p) p n m tc tp L
      = some (Json.bool (decide ((m : Int) < (T : Int))),
          some (Json.num (T : Int)),
          some (Json.num (((T : Int) + (L : Int) - 1).fdiv (L : Int)))) := by
  have hTz : ((T : Int) ≠ 0) := by
    have : (0 : Int) < (T : Int) := by exact_mod_cast hT
    omega
  rw [snitchServe, snitch_has_more]
  simp only [Json.get?, dictFind, List.find?]
  have hLz : L ≠ 0 := Nat.pos_iff_ne_zero.mp hL
  simp [Json.truthy, pyToInt, pyAssignOpt, pyLtNatJson, hTz, hLz]

theorem snitch_loop_serve (T L : Nat) (hL : 0 < L) (hTs : T ≤ 1000 * L) :
    ∀ (fuel page : Nat) (acc : List Record) (fetches : Nat) (tc tp : Option Json),
    1 ≤ page → (page - 1) * L < T → acc.length = (page - 1) * L →
    (T - (page - 1) * L + L - 1) / L ≤ fuel →
    ∃ ps : List Record,
      snitch_scrape_loop (snitchServe T L) L fuel page tc tp acc fetches
        = .ok ps (fetches + (T - (page - 1) * L + L - 1) / L) false ∧
      ps.length = T := by
  intro fuel
  induction fuel with
  | zero =>
    intro page acc fetches tc tp hpage hoff hacc hfuel
    exfalso
    have h1 : 1 ≤ (T - (page - 1) * L + L - 1) / L :=
      (Nat.one_le_div_iff hL).mpr (by omega)
    omega
  | succ fuel ih =>
    intro page acc fetches tc tp hpage hoff hacc hfuel
    have hmul : page * L = (page - 1) * L + L := by
      have h1 : page = (page - 1) + 1 := by omega
      calc page * L = ((page - 1) + 1) * L := by rw [← h1]
        _ = (page - 1) * L + L := by rw [Nat.succ_mul]
    obtain ⟨off, hoffeq⟩ : ∃ off, (page - 1) * L = off := ⟨_, rfl⟩
    rw [hoffeq] at hoff hacc hfuel hmul ⊢
    have hext := snitch_extract_serve T L page (by rw [hoffeq]; omega)
    rw [hoffeq] at hext
    rw [snitch_scrape_loop, hext]
    have hmin : 1 ≤ min L (T - off) := by omega
    have hlen : ((List.range' off (min L (T - off))).map
        (fun i : Nat => Snitch.extract_product_info
          [("id", Json.num (i : Int))])).length = min L (T - off) := by
      rw [List.length_map, List.length_range']
    have hnil : ((List.range' off (min L (T - off))).map
        (fun i : Nat => Snitch.extract_product_info
          [("id", Json.num (i : Int))])) ≠ [] := by
      intro h
      rw [h] at hlen
      simp at hlen
      omega
    have hne : ((List.range' off (min L (T - off))).map
        (fun i : Nat => Snitch.extract_product_info
          [("id", Json.num (i : Int))])).isEmpty = false := by
      simpa [List.isEmpty_iff] using hnil
    dsimp only
    rw [hne]
    simp only [Bool.false_eq_true, if_false, ite_false, reduceIte]
    rw [snitch_has_more_serve T L page _ _ tc tp (by omega) hL]
    dsimp only [Json.truthy]
    have hm : (acc ++ (List.range' off (min L (T - off))).map
        (fun i : Nat => Snitch.extract_product_info
          [("id", Json.num (i : Int))])).length = min (off + L) T := by
      rw [List.length_append, hacc, hlen]
      omega
    by_cases hcase : off + L < T
    · have hlt : ((acc ++ (List.range' off (min L (T - off))).map
          (fun i : Nat => Snitch.extract_product_info
            [("id", Json.num (i : Int))])).length : Int) < (T : Int) := by
        rw [hm]
        push_cast
        omega
      rw [decide_eq_true hlt]
      simp only [Bool.true_eq_false, if_false, ite_false, reduceIte]
      have hpagelt : page < 1000 := by
        have h1 : page * L < 1000 * L := by omega
        exact lt_of_mul_lt_mul_right h1 (Nat.zero_le L)
      rw [if_neg (by omega : ¬ page + 1 > 1000)]
      have harith : (T - off + L - 1) / L = (T - (off + L) + L - 1) / L + 1 := by
        rw [← Nat.add_div_right _ hL]
        congr 1
        omega
      have hoffeq' : (page + 1 - 1) * L = off + L := by
        rw [Nat.add_sub_cancel, hmul]
      obtain ⟨ps, hps, hlenps⟩ := ih (page + 1)
        (acc ++ (List.range' off (min L (T - off))).map
          (fun i : Nat => Snitch.extract_product_info
            [("id", Json.num (i : Int))]))
        (fetches + 1) (some (Json.num (T : Int)))
        (some (Json.num (((T : Int) + (L : Int) - 1).fdiv (L : Int))))
        (by omega) (by rw [hoffeq']; omega)
        (by rw [hoffeq', hm]; omega) (by rw [hoffeq']; omega)
      rw [hoffeq'] at hps
      refine ⟨ps, ?_, hlenps⟩
      rw [hps]
      congr 1
      omega
    · have hnlt : ¬ ((acc ++ (List.range' off (min L (T - off))).map
          (fun i : Nat => Snitch.extract_product_info
            [("id", Json.num (i : Int))])).length : Int) < (T : Int) := by
        rw [hm]
        push_cast
        omega
      rw [decide_eq_false hnlt]
      simp only [if_true, reduceIte, ite_true]
      refine ⟨acc ++ (List.range' off (min L (T - off))).map
          (fun i : Nat => Snitch.extract_product_info
            [("id", Json.num (i : Int))]), ?_, ?_⟩
      · congr 1
        have : (T - off + L - 1) / L = 1 :=
          Nat.div_eq_of_lt_le (by omega) (by omega)
        omega
      · rw [hm]
        omega

/-- C2 (amended): Pagination termination count.  For a simulated source
holding a fixed total count `T ≥ 1` of distinct records served in order in
pages of size `L > 0`, with every response carrying the total-count field
and `T` within the safety ceiling (offset ceiling 100000 for tasva, page
ceiling 1000 for snitch), both pagination loops issue exactly
`⌈T / L⌉ = (T + L - 1) / L` fetches and the collected record list has
exactly `T` elements when the loop exits.  The original claim's unstated
boundary case `T = 0` fails: the loop always issues its first fetch before
seeing the empty page, so it performs one fetch where `⌈T / L⌉ = 0`
(see the counterexample). -/
theorem pagination_termination_amended (T L : Nat) (hT1 : 1 ≤ T) (hL : 0 < L)
    (hTt : T ≤ 100000) (hTs : T ≤ 1000 * L) :
    (∃ ps : List Record, tasva_scrape_query (tasvaServe T L) L
        = .ok ps ((T + L - 1) / L) false ∧ ps.length = T) ∧
    (∃ qs : List Record, snitch_scrape_query (snitchServe T L) L
        = .ok qs ((T + L - 1) / L) false ∧ qs.length = T) := by
  have hceil : (T + L - 1) / L = (T - 1) / L + 1 := by
    rw [← Nat.add_div_right _ hL]
    congr 1
    omega
  have hdleT : (T - 1) / L ≤ T - 1 := Nat.div_le_self _ _
  constructor
  · have hfuelb : (T - 0 + L - 1) / L ≤ 100002 := by
      rw [Nat.sub_zero, hceil]
      omega
    obtain ⟨ps, hps, hlen⟩ := tasva_loop_serve T L hL hTt 100002 0 [] 0 none
      (by omega) rfl hfuelb
    rw [Nat.sub_zero] at hps
    refine ⟨ps, ?_, hlen⟩
    rw [tasva_scrape_query, hps, Nat.zero_add]
  · have hdlt : (T - 1) / L < 1000 :=
      (Nat.div_lt_iff_lt_mul hL).mpr (by omega)
    have h00 : (1 - 1) * L = 0 := by simp
    have hfuelb : (T - (1 - 1) * L + L - 1) / L ≤ 1001 := by
      rw [h00, Nat.sub_zero, hceil]
      omega
    obtain ⟨qs, hqs, hlen⟩ := snitch_loop_serve T L hL hTs 1001 1 [] 0 none none
      (le_refl 1) (by rw [h00]; omega) (by simp) hfuelb
    rw [h00, Nat.sub_zero] at hqs
    refine ⟨qs, ?_, hlen⟩
    rw [snitch_scrape_query, hqs, Nat.zero_add]

/-- C2 counterexample: a simulated source with total count `T = 0` and page
size `L = 1`.  The spec demands `⌈T / L⌉ = 0` fetches, but the loop
unconditionally issues its first fetch before it can observe the empty
page, so it performs exactly one fetch. -/
theorem pagination_termination_counterexample :
    tasva_scrape_query (tasvaServe 0 1) 1 = ScrapeResult.ok [] 1 false ∧
    (0 + 1 - 1) / 1 = 0 ∧ (1 : Nat) ≠ 0 := by
  refine ⟨?_, rfl, by decide⟩
  rfl

theorem pagination_termination_amended_witness :
    (∃ ps : List Record, tasva_scrape_query (tasvaServe 3 2) 2
        = .ok ps ((3 + 2 - 1) / 2) false ∧ ps.length = 3) ∧
    (∃ qs : List Record, snitch_scrape_query (snitchServe 3 2) 2
        = .ok qs ((3 + 2 - 1) / 2) false ∧ qs.length = 3) :=
  pagination_termination_amended 3 2 (by decide) (by decide) (by decide)
    (by decide)

theorem snitch_safety_loop (server : Nat → Json) (L : Nat)
    (spages : Nat → List Record)
    (hsext : ∀ p, Snitch.extract_products (server p) = some (spages p))
    (hsne : ∀ p, spages p ≠ [])
    (hsmore : ∀ p m tc tp, ∃ hm tc2 tp2,
      snitch_has_more (server p) p (spages p).length m tc tp L
        = some (hm, tc2, tp2) ∧ hm.truthy = true) :
    ∀ (fuel page : Nat) (tc tp : Option Json) (acc : List Record)
      (fetches : Nat),
    1 ≤ page → page ≤ 1000 → 1001 - page ≤ fuel →
    ∃ ps : List Record,
      snitch_scrape_loop server L fuel page tc tp acc fetches
        = .ok ps (fetches + (1001 - page)) true ∧ ps ≠ [] := by
  intro fuel
  induction fuel with
  | zero =>
    intro page tc tp acc fetches hp1 hp2 hfuel
    omega
  | succ fuel ih =>
    intro page tc tp acc fetches hp1 hp2 hfuel
    rw [snitch_scrape_loop, hsext page]
    have hne : (spages page).isEmpty = false := by
      simpa [List.isEmpty_iff] using hsne page
    dsimp only
    rw [hne]
    simp only [Bool.false_eq_true, if_false, ite_false, reduceIte]
    obtain ⟨hm, tc2, tp2, hhm, htru⟩ :=
      hsmore page (acc ++ spages page).length tc tp
    rw [hhm]
    dsimp only
    rw [htru]
    simp only [Bool.true_eq_false, if_false, ite_false, reduceIte]
    by_cases hlast : page + 1 > 1000
    · rw [if_pos hlast]
      refine ⟨acc ++ spages page, ?_, ?_⟩
      · congr 1
        omega
      · intro h
        exact hsne page (List.append_eq_nil.mp h).2
    · rw [if_neg hlast]
      obtain ⟨ps, hps, hpsne⟩ := ih (page + 1) tc2 tp2 (acc ++ spages page)
        (fetches + 1) (by omega) (by omega) (by omega)
      refine ⟨ps, ?_, hpsne⟩
      rw [hps]
      congr 1
      omega

theorem tasva_safety_loop (server : Nat → Json) (L : Nat) (hL : 0 < L)
    (tpages : Nat → List Record)
    (htext : ∀ off, Tasva.extract_products (server off) = some (tpages off))
    (htne : ∀ off, tpages off ≠ [])
    (htmore : ∀ off m, tasva_has_more (server off) (tpages off).length m none L
        = some (true, none)) :
    ∀ (fuel off : Nat) (acc : List Record) (fetches : Nat),
    (100000 - off) / L + 1 ≤ fuel →
    ∃ ps : List Record,
      tasva_scrape_loop server L fuel off none acc fetches
        = .ok ps (fetches + ((100000 - off) / L + 1)) true ∧ ps ≠ [] := by
  intro fuel
  induction fuel with
  | zero =>
    intro off acc fetches hfuel
    exact (Nat.not_succ_le_zero _ hfuel).elim
  | succ fuel ih =>
    intro off acc fetches hfuel
    rw [tasva_scrape_loop, htext off]
    have hne : (tpages off).isEmpty = false := by
      simpa [List.isEmpty_iff] using htne off
    dsimp only
    rw [hne]
    simp only [Bool.false_eq_true, if_false, ite_false, reduceIte]
    have hhm := htmore off (acc ++ tpages off).length
    rw [hhm]
    dsimp only
    simp only [Bool.true_eq_false, if_false, ite_false, reduceIte]
    by_cases hlast : off + L > 100000
    · rw [if_pos hlast]
      have hdiv : (100000 - off) / L = 0 := Nat.div_eq_of_lt (by omega)
      refine ⟨acc ++ tpages off, ?_, ?_⟩
      · rw [hdiv]
      · intro h
        exact htne off (List.append_eq_nil.mp h).2
    · rw [if_neg hlast]
      have hrec : (100000 - off) / L = (100000 - (off + L)) / L + 1 := by
        have h1 : (100000 - off) / L = ((100000 - off) - L) / L + 1 :=
          Nat.div_eq_sub_div hL (by omega)
        rw [h1]
        congr 2
        omega
      obtain ⟨ps, hps, hpsne⟩ := ih (off + L) (acc ++ tpages off)
        (fetches + 1) (by omega)
      refine ⟨ps, ?_, hpsne⟩
      rw [hps]
      congr 1
      omega

/-- C7: Safety ceiling.  For every simulated source that always signals
more pages and returns at least one record per page (stated via the page
contents `spages`/`tpages` as universally truthy continuation decisions),
both pagination loops terminate by the hard ceiling — the snitch loop
stops after the page 1000 fetch (page number exceeding 1000), the tasva
loop after the fetch whose advanced offset exceeds 100000 — surfacing the
safety condition (`true` flag) with the non-empty collected list
returned, not discarded. -/
theorem pagination_safety_ceiling (snitchSrv tasvaSrv : Nat → Json)
    (L : Nat) (spages tpages : Nat → List Record) (hL : 0 < L)
    (hsext : ∀ p, Snitch.extract_products (snitchSrv p) = some (spages p))
    (hsne : ∀ p, spages p ≠ [])
    (hsmore : ∀ p m tc tp, ∃ hm tc2 tp2,
      snitch_has_more (snitchSrv p) p (spages p).length m tc tp L
        = some (hm, tc2, tp2) ∧ hm.truthy = true)
    (htext : ∀ off, Tasva.extract_products (tasvaSrv off) = some (tpages off))
    (htne : ∀ off, tpages off ≠ [])
    (htmore : ∀ off m,
      tasva_has_more (tasvaSrv off) (tpages off).length m none L
        = some (true, none)) :
    (∃ ps : List Record, snitch_scrape_query snitchSrv L
        = .ok ps 1000 true ∧ ps ≠ []) ∧
    (∃ qs : List Record, tasva_scrape_query tasvaSrv L
        = .ok qs (100000 / L + 1) true ∧ qs ≠ []) := by
  constructor
  · obtain ⟨ps, hps, hne⟩ := snitch_safety_loop snitchSrv L spages
      hsext hsne hsmore 1001 1 none none [] 0 (by omega) (by omega) (by omega)
    exact ⟨ps, by rw [snitch_scrape_query, hps], hne⟩
  · obtain ⟨qs, hqs, hne⟩ := tasva_safety_loop tasvaSrv L hL tpages
      htext htne htmore 100002 0 [] 0
      (by have := Nat.div_le_self (100000 - 0) L; omega)
    refine ⟨qs, ?_, hne⟩
    rw [tasva_scrape_query, hqs, Nat.sub_zero, Nat.zero_add]

/-- The always-more snitch source used to witness the safety ceiling: a
top-level `products` list with one record and a top-level truthy
`hasMore` on every page. -/
def snitchAlwaysMore (_ : Nat) : Json :=
  Json.obj [("products", Json.arr [Json.obj [("title", Json.str "x")]]),
    ("hasMore", Json.bool true)]

/-- The always-more tasva source used to witness the safety ceiling: a
full page (one record at limit 1) with no `total` field, engaging the
full-page continuation heuristic on every page. -/
def tasvaAlwaysMore (_ : Nat) : Json :=
  Json.obj [("success", Json.bool true),
    ("results", Json.obj [("products", Json.obj [("hits",
      Json.arr [Json.obj [("_source",
        Json.obj [("ProductID", Json.num 1)])]])])])]

theorem pagination_safety_ceiling_witness :
    (∃ ps : List Record, snitch_scrape_query snitchAlwaysMore 1
        = .ok ps 1000 true ∧ ps ≠ []) ∧
    (∃ qs : List Record, tasva_scrape_query tasvaAlwaysMore 1
        = .ok qs (100000 / 1 + 1) true ∧ qs ≠ []) :=
  pagination_safety_ceiling snitchAlwaysMore tasvaAlwaysMore 1
    (fun _ => [Snitch.extract_product_info [("title", Json.str "x")]])
    (fun _ => [Tasva.extract_product_info [("ProductID", Json.num 1)]])
    (by decide)
    (fun _ => rfl)
    (fun _ => List.cons_ne_nil _ _)
    (fun p m tc tp => ⟨Json.bool true, tc, tp, rfl, rfl⟩)
    (fun _ => rfl)
    (fun _ => List.cons_ne_nil _ _)
    (fun _ _ => rfl)

/-! ## The tasva search request/response handling (C8) -/

/-- An HTTP response as `search` consumes it: a status code and the decoded
JSON body (`none` when `response.json()` raises). -/
structure HttpResp where
  status : Nat
  body : Option Json
deriving DecidableEq

/-- `payload_no_hash` of `tasva_scraper.search` (lines 336-338): a copy of
the payload with `hash` popped and `validateHash` set to `False`. -/
def retry_payload (payload : Record) : Record :=
  dictSet (dictDel payload "hash") "validateHash" (Json.bool false)

/-- The response handling of `tasva_scraper.search` (lines 319-383),
abstracted over the HTTP POST (`send`, applied to the request payload):
on a 400 status whose body is a dict with `msg == ["INVALID_REQUEST"]`,
one retry is issued with the relaxed payload and replaces the response;
then `raise_for_status` turns any remaining error status (>= 400) into an
empty-dict result, a decoded body is returned as-is and an undecodable
body yields the empty dict.  The second component records the trace of
issued requests. -/
def tasva_search_attempt (send : Record → HttpResp) (payload : Record) :
    Json × List Record :=
  let r := send payload
  let step2 : HttpResp × List Record :=
    if r.status = 400 then
      match r.body with
      | some (Json.obj kvs) =>
        if dictFind kvs "msg" = some (Json.arr [Json.str "INVALID_REQUEST"]) then
          let p2 := retry_payload payload
          (send p2, [payload, p2])
        else (r, [payload])
      | _ => (r, [payload])
    else (r, [payload])
  match step2 with
  | (r2, trace) =>
    if 400 ≤ r2.status then (Json.obj [], trace)
    else match r2.body with
      | some d => (d, trace)
      | none => (Json.obj [], trace)

theorem dictFind_dictDel_self (kvs : List (String × Json)) (k : String) :
    dictFind (dictDel kvs k) k = none := by
  induction kvs with
  | nil => rfl
  | cons kv rest ih =>
    by_cases h : kv.1 = k
    · simpa [dictDel, dictFind, h] using ih
    · simpa [dictDel, dictFind, List.find?, h] using ih

theorem dictFind_dictSet_self (kvs : List (String × Json)) (k : String)
    (v : Json) :
    dictFind (dictSet kvs k v) k = some v := by
  induction kvs with
  | nil => simp [dictSet, dictFind, List.find?]
  | cons kv rest ih =>
    obtain ⟨k', v'⟩ := kv
    by_cases h : k' = k
    · simp [dictSet, dictFind, List.find?, h]
    · simpa [dictSet, dictFind, List.find?, h] using ih

theorem dictFind_dictSet_other (kvs : List (String × Json)) (k2 : String)
    (v : Json) (k : String) (h : k ≠ k2) :
    dictFind (dictSet kvs k2 v) k = dictFind kvs k := by
  induction kvs with
  | nil => simp [dictSet, dictFind, List.find?, Ne.symm h]
  | cons kv rest ih =>
    obtain ⟨k', v'⟩ := kv
    by_cases h2 : k' = k2
    · subst h2
      simp [dictSet, dictFind, List.find?, Ne.symm h]
    · by_cases h3 : k' = k
      · subst h3
        simp [dictSet, dictFind, List.find?, h2]
      · simpa [dictSet, dictFind, List.find?, h2, h3] using ih

/-- C8: Bounded auth retry.  When the search request is answered with HTTP
400 and an error payload whose `msg` is `["INVALID_REQUEST"]`, exactly one
retry is issued — the request trace is the original payload followed by
the relaxed payload, which has `hash` removed and `validateHash` set to
false — and if the retry also fails (any error status), the result is the
same as a transport error: the empty dict is returned and no further
requests occur. -/
theorem tasva_auth_retry_bounded (send : Record → HttpResp) (payload : Record)
    (h400 : (send payload).status = 400)
    (hmsg : ∃ kvs, (send payload).body = some (Json.obj kvs) ∧
      dictFind kvs "msg" = some (Json.arr [Json.str "INVALID_REQUEST"])) :
    (tasva_search_attempt send payload).2 = [payload, retry_payload payload] ∧
    dictFind (retry_payload payload) "hash" = none ∧
    dictFind (retry_payload payload) "validateHash" = some (Json.bool false) ∧
    (400 ≤ (send (retry_payload payload)).status →
      (tasva_search_attempt send payload).1 = Json.obj []) := by
  obtain ⟨kvs, hbody, hm⟩ := hmsg
  have hstep : tasva_search_attempt send payload
      = (if 400 ≤ (send (retry_payload payload)).status then
          (Json.obj [], [payload, retry_payload payload])
         else match (send (retry_payload payload)).body with
           | some d => (d, [payload, retry_payload payload])
           | none => (Json.obj [], [payload, retry_payload payload])) := by
    rw [tasva_search_attempt]
    rw [h400, hbody]
    simp [hm]
  refine ⟨?_, ?_, ?_, ?_⟩
  · rw [hstep]
    split
    · rfl
    · split <;> rfl
  · rw [retry_payload,
      dictFind_dictSet_other _ _ _ _ (by decide)]
    exact dictFind_dictDel_self payload "hash"
  · exact dictFind_dictSet_self _ _ _
  · intro hfail
    rw [hstep, if_pos hfail]

/-- A concrete server for the bounded-retry scenario: the signed request is
rejected with 400 `INVALID_REQUEST`; the relaxed request (validateHash
false) fails with a 500. -/
def invalidRequestServer (p : Record) : HttpResp :=
  if dictFind p "validateHash" = some (Json.bool false) then
    ⟨500, none⟩
  else
    ⟨400, some (Json.obj [("msg", Json.arr [Json.str "INVALID_REQUEST"])])⟩

/-- The request payload used in the bounded-retry witness scenario. -/
def signedPayload : Record :=
  [("searchWord", Json.str "kurta"),
   ("hash", Json.str "30c23fb01d501a7bf6d4e68019a9992d"),
   ("validateHash", Json.bool true)]

theorem tasva_auth_retry_bounded_witness :
    (tasva_search_attempt invalidRequestServer signedPayload).2
        = [signedPayload, retry_payload signedPayload] ∧
    dictFind (retry_payload signedPayload) "hash" = none ∧
    dictFind (retry_payload signedPayload) "validateHash"
        = some (Json.bool false) ∧
    (400 ≤ (invalidRequestServer (retry_payload signedPayload)).status →
      (tasva_search_attempt invalidRequestServer signedPayload).1
        = Json.obj []) :=
  tasva_auth_retry_bounded invalidRequestServer signedPayload
    (by decide)
    ⟨[("msg", Json.arr [Json.str "INVALID_REQUEST"])], by decide, by decide⟩

/-! ## Image-URL derivation (add_image_urls.py, C9) -/

/-- Python whitespace as `str.strip` removes it. -/
def isPySpace (c : Char) : Bool :=
  c = ' ' ∨ c = '\t' ∨ c = '\n' ∨ c = '\r' ∨ c = '\x0b' ∨ c = '\x0c'

/-- Python `str.strip()`: drop leading and trailing whitespace. -/
def pyStrip (s : String) : String :=
  ⟨((s.data.dropWhile isPySpace).reverse.dropWhile isPySpace).reverse⟩

def splitCommaAux : List Char → List Char → List String
  | [], cur => [⟨cur.reverse⟩]
  | c :: rest, cur =>
    if c = ',' then ⟨cur.reverse⟩ :: splitCommaAux rest []
    else splitCommaAux rest (c :: cur)

/-- Python `str.split(',')` (note `"".split(',') == [""]`). -/
def pySplitComma (s : String) : List String := splitCommaAux s.data []

/-- `add_image_urls.generate_image_url` (lines 15-25). -/
def generate_image_url (image_id : String) : String :=
  "https://imagescdn.tasva.com/img/app/product/1/" ++ image_id
    ++ ".jpg?w=1000&auto=format"

/-- `add_image_urls.parse_images` (lines 28-43): empty or blank input gives
no identifiers; otherwise split on commas, strip each piece and keep the
non-empty ones. -/
def parse_images (images_str : String) : List String :=
  if images_str = "" ∨ pyStrip images_str = "" then []
  else ((pySplitComma images_str).map pyStrip).filter (fun t => t ≠ "")

/-- C9: Image-URL derivation.  The example identifier list
`"1078050-16668879, 1078050-16668881"` parses to the two identifiers in
order and maps to exactly the two expected CDN URLs; in general, for any
non-blank input the parsed identifiers are the non-empty stripped
comma-pieces of the input, and the generated URL list preserves their
length and order (the i-th URL is generated from the i-th identifier). -/
theorem image_url_derivation (s : String) (hs : pyStrip s ≠ "") :
    parse_images "1078050-16668879, 1078050-16668881"
        = ["1078050-16668879", "1078050-16668881"] ∧
    (parse_images "1078050-16668879, 1078050-16668881").map generate_image_url
        = ["https://imagescdn.tasva.com/img/app/product/1/1078050-16668879.jpg?w=1000&auto=format",
           "https://imagescdn.tasva.com/img/app/product/1/1078050-16668881.jpg?w=1000&auto=format"] ∧
    parse_images s
        = ((pySplitComma s).map pyStrip).filter (fun t => t ≠ "") ∧
    ((parse_images s).map generate_image_url).length
        = (parse_images s).length ∧
    (∀ i (h : i < (parse_images s).length),
      ((parse_images s).map generate_image_url).get
          ⟨i, by rw [List.length_map]; exact h⟩
        = generate_image_url ((parse_images s).get ⟨i, h⟩)) := by
  have hsne : s ≠ "" := by
    intro h
    apply hs
    rw [h]
    rfl
  refine ⟨by decide, by decide, ?_, List.length_map _ _, ?_⟩
  · rw [parse_images, if_neg (by simp [hsne, hs])]
  · intro i h
    simp [List.get_eq_getElem, List.getElem_map]

theorem image_url_derivation_witness :
    parse_images "1078050-16668879, 1078050-16668881"
        = ["1078050-16668879", "1078050-16668881"] ∧
    (parse_images "1078050-16668879, 1078050-16668881").map generate_image_url
        = ["https://imagescdn.tasva.com/img/app/product/1/1078050-16668879.jpg?w=1000&auto=format",
           "https://imagescdn.tasva.com/img/app/product/1/1078050-16668881.jpg?w=1000&auto=format"] ∧
    parse_images "1078050-16668879, 1078050-16668881"
        = ((pySplitComma "1078050-16668879, 1078050-16668881").map pyStrip).filter
            (fun t => t ≠ "") ∧
    ((parse_images "1078050-16668879, 1078050-16668881").map generate_image_url).length
        = (parse_images "1078050-16668879, 1078050-16668881").length ∧
    (∀ i (h : i < (parse_images "1078050-16668879, 1078050-16668881").length),
      ((parse_images "1078050-16668879, 1078050-16668881").map generate_image_url).get
          ⟨i, by rw [List.length_map]; exact h⟩
        = generate_image_url
            ((parse_images "1078050-16668879, 1078050-16668881").get ⟨i, h⟩)) :=
  image_url_derivation "1078050-16668879, 1078050-16668881" (by decide)
